import Mathlib

/-!
Shallow embedding of the NES emulator core (kulshrax/nes) in Lean 4.

The embedding translates the Rust source directly:
  * machine bytes (`u8`) and addresses (`u16`) are `Nat` with explicit
    `% 256` / `% 65536` at every point where the Rust code wraps;
  * the abstract `Bus` trait is a structure of state-passing functions;
  * code that can panic (illegal opcodes, STP, the infinite-loop detector,
    `effective_address` on Implicit/Accumulator/Immediate, usize underflow,
    array indexing out of bounds) returns `Except Err`.

Source files embedded: src/mem/address.rs, src/cpu/registers.rs,
src/cpu/addressing.rs, src/cpu/instruction.rs, src/cpu/mod.rs, src/ppu.rs,
src/mapper/mapper0.rs, src/mem/mod.rs.
-/

namespace Nes

/-- Status-register bit constants from the bitflags block in src/cpu/registers.rs. -/
def Flags.CARRY : Nat := 1

/-- ZERO is bit 1. -/
def Flags.ZERO : Nat := 2

/-- INTERRUPT_DISABLE is bit 2. -/
def Flags.INTERRUPT_DISABLE : Nat := 4

/-- DECIMAL is bit 3. -/
def Flags.DECIMAL : Nat := 8

/-- BREAK is bit 4. -/
def Flags.BREAK : Nat := 16

/-- UNUSED is bit 5. -/
def Flags.UNUSED : Nat := 32

/-- OVERFLOW is bit 6. -/
def Flags.OVERFLOW : Nat := 64

/-- NEGATIVE is bit 7. -/
def Flags.NEGATIVE : Nat := 128

/-- ALWAYS_ON = BREAK.bits | UNUSED.bits (src/cpu/registers.rs line 97). -/
def Flags.ALWAYS_ON : Nat := Flags.BREAK ||| Flags.UNUSED

/-- bitflags `contains`: all bits of `c` are present in `p`. -/
def Flags.contains (p c : Nat) : Bool := (p &&& c) == c

/-- bitflags `insert`: set the bits of `c`. -/
def Flags.insert (p c : Nat) : Nat := p ||| c

/-- bitflags `remove`: clear the bits of `c` (u8 complement of the mask). -/
def Flags.remove (p c : Nat) : Nat := p &&& (255 ^^^ c)

/-- bitflags `set`: insert when the bool is true, remove otherwise. -/
def Flags.set (p c : Nat) (b : Bool) : Nat :=
  if b then Flags.insert p c else Flags.remove p c

/-- bitflags `from_bits_truncate`: all eight bits are named flags, so this
truncates a value to a u8. -/
def Flags.fromBitsTruncate (bits : Nat) : Nat := bits % 256

/-- CPU register file (src/cpu/registers.rs).  `a`, `x`, `y`, `s` are u8,
`pc` is a 16-bit Address, `p` is the status byte. -/
structure Registers where
  a : Nat
  x : Nat
  y : Nat
  s : Nat
  pc : Nat
  p : Nat
deriving Repr, DecidableEq

/-- Registers::new — s = 0xfd, everything else from Default.  The Default for
Flags is Flags::ALWAYS_ON (src/cpu/registers.rs lines 101-105), and Address
defaults to 0. -/
def Registers.new : Registers :=
  { a := 0, x := 0, y := 0, s := 0xfd, pc := 0, p := Flags.ALWAYS_ON }

/-- Panics of the emulator core, surfaced as errors of the embedding. -/
inductive Err where
  /-- `panic!("Illegal opcode ...")` in Instruction::fetch; carries the start
  pc and the opcode byte. -/
  | illegalOpcode (pc opcode : Nat)
  /-- `panic!("CPU halted due to (illegal) STP instruction")`. -/
  | stp
  /-- `panic!("Detected infinite loop at ...")` in Cpu::step. -/
  | infiniteLoop
  /-- `panic!("Cannot take address of ...")` for Implicit/Accumulator/Immediate. -/
  | noAddress
  /-- Rust usize subtraction underflow (debug-profile panic). -/
  | subUnderflow
  /-- Rust array indexing out of bounds. -/
  | indexOutOfBounds
deriving Repr, DecidableEq

/-- Abstract CPU bus (the `Bus` trait of src/mem/mod.rs): loads and stores may
both mutate the device state.  `load_byte` records that a Rust `load` returns
a `u8`. -/
structure BusModel (σ : Type) where
  load : σ → Nat → Nat × σ
  store : σ → Nat → Nat → σ
  load_byte : ∀ s a, (load s a).1 < 256

/-- u16::from_le_bytes [low, high] for byte values `low`, `high`. -/
def mkAddr (low high : Nat) : Nat := 256 * high + low

/-- Address + i8 (impl Add of i8 for Address in src/mem/address.rs):
sign-dependent wrapping add/sub on the 16-bit value. -/
def addrAddI8 (pc : Nat) (off : Int) : Nat :=
  if off < 0 then (pc + 65536 - (-off).toNat % 65536) % 65536
  else (pc + off.toNat) % 65536

/-- Interpretation of an operand byte as an i8 (the `as i8` cast used when
decoding Relative operands). -/
def asI8 (b : Nat) : Int :=
  if b < 128 then (b : Int) else (b : Int) - 256

/-- The thirteen addressing-mode variants of src/cpu/addressing.rs (plus
Implicit, which carries no operand in the Rust Instruction enum). -/
inductive Mode where
  | implicit
  | accumulator
  | immediate (v : Nat)
  | zeroPage (d : Nat)
  | zeroPageX (d : Nat)
  | zeroPageY (d : Nat)
  | relative (off : Int)
  | absolute (a : Nat)
  | absoluteX (a : Nat)
  | absoluteY (a : Nat)
  | indirect (a : Nat)
  | indexedIndirect (d : Nat)
  | indirectIndexed (d : Nat)
deriving Repr, DecidableEq

/-- AddressingMode::address for each variant (src/cpu/addressing.rs).
Implicit, Accumulator and Immediate panic; the others compute the effective
address, possibly reading pointer bytes through the bus. -/
def Mode.address (am : Mode) (B : BusModel σ) (s : σ) (r : Registers) :
    Except Err (Nat × σ) :=
  match am with
  | .implicit => .error .noAddress
  | .accumulator => .error .noAddress
  | .immediate _ => .error .noAddress
  | .zeroPage d => .ok (d, s)
  | .zeroPageX d => .ok ((r.x + d) % 256, s)
  | .zeroPageY d => .ok ((r.y + d) % 256, s)
  | .relative off => .ok (addrAddI8 r.pc off, s)
  | .absolute a => .ok (a, s)
  | .absoluteX a => .ok ((a + r.x) % 65536, s)
  | .absoluteY a => .ok ((a + r.y) % 65536, s)
  | .indirect a =>
    let (low, s1) := B.load s a
    let (high, s2) := B.load s1 (mkAddr ((a % 256 + 1) % 256) (a / 256 % 256))
    .ok (mkAddr low high, s2)
  | .indexedIndirect d =>
    let (low, s1) := B.load s ((d + r.x) % 256)
    let (high, s2) := B.load s1 ((d + r.x + 1) % 256)
    .ok (mkAddr low high, s2)
  | .indirectIndexed d =>
    let (low, s1) := B.load s d
    let (high, s2) := B.load s1 ((d + 1) % 256)
    .ok ((mkAddr low high + r.y) % 65536, s2)

/-- AddressingMode::load: Accumulator reads A, Immediate returns the embedded
byte, every other variant reads the bus at the effective address. -/
def Mode.load (am : Mode) (B : BusModel σ) (s : σ) (r : Registers) :
    Except Err (Nat × σ) :=
  match am with
  | .accumulator => .ok (r.a, s)
  | .immediate v => .ok (v, s)
  | _ =>
    match am.address B s r with
    | .error e => .error e
    | .ok (addr, s1) => .ok (B.load s1 addr)

/-- AddressingMode::store: Accumulator writes A, Immediate (and Implicit)
falls through to the default implementation and panics on address, every
other variant writes the bus at the effective address. -/
def Mode.store (am : Mode) (B : BusModel σ) (s : σ) (r : Registers) (v : Nat) :
    Except Err (Registers × σ) :=
  match am with
  | .accumulator => .ok ({ r with a := v }, s)
  | _ =>
    match am.address B s r with
    | .error e => .error e
    | .ok (addr, s1) => .ok (r, B.store s1 addr v)

/-- Operation mnemonics of the Instruction enum (src/cpu/instruction.rs); the
addressing mode is carried separately.  Undocumented operations keep their
`U` prefix. -/
inductive Op where
  | adc | opAnd | asl | bcc | bcs | beq | bit | bmi | bne | bpl | brk
  | bvc | bvs | clc | cld | cli | clv | cmp | cpx | cpy | dec | dex | dey
  | eor | inc | inx | iny | jmp | jsr | lda | ldx | ldy | lsr | nop | ora
  | pha | php | pla | plp | rol | ror | rti | rts | sbc | sec | sed | sei
  | sta | stx | sty | tax | tay | tsx | txa | txs | tya
  | uDcp | uIsb | uLax | uNop | uRla | uRra | uSax | uSlo | uSre | uStp
deriving Repr, DecidableEq

/-- A decoded instruction: operation plus addressing-mode operand. -/
abbrev Instr := Op × Mode

/-- read_byte of src/cpu/instruction.rs: load at pc, then pc += 1. -/
def readByte (B : BusModel σ) (s : σ) (pc : Nat) : Nat × Nat × σ :=
  let (b, s1) := B.load s pc
  (b, (pc + 1) % 65536, s1)

/-- read_addr of src/cpu/instruction.rs: load the little-endian pair at pc
and pc+1, then pc += 2. -/
def readAddrOperand (B : BusModel σ) (s : σ) (pc : Nat) : Nat × Nat × σ :=
  let (lsb, s1) := B.load s pc
  let (msb, s2) := B.load s1 ((pc + 1) % 65536)
  (mkAddr lsb msb, (pc + 2) % 65536, s2)

/-- Shape of one entry of the 256-entry decode table: which operand bytes the
opcode consumes and how the addressing mode is built from them.  `ill` marks
the twelve unstable undocumented opcodes, which panic when decoded. -/
inductive DecEntry where
  | imp (op : Op)
  | acc (op : Op)
  | byt (op : Op) (mk : Nat → Mode)
  | rel (op : Op)
  | adr (op : Op) (mk : Nat → Mode)
  | ill

/-- Opcode table row 0x00-0x0F. -/
def decodeRow0 : List DecEntry :=
  [ .imp .brk, .byt .ora Mode.indexedIndirect, .imp .uStp, .byt .uSlo Mode.indexedIndirect, .byt .uNop Mode.zeroPage, .byt .ora Mode.zeroPage, .byt .asl Mode.zeroPage, .byt .uSlo Mode.zeroPage, .imp .php, .byt .ora Mode.immediate, .acc .asl, .ill, .adr .uNop Mode.absolute, .adr .ora Mode.absolute, .adr .asl Mode.absolute, .adr .uSlo Mode.absolute ]

/-- Opcode table row 0x10-0x1F. -/
def decodeRow1 : List DecEntry :=
  [ .rel .bpl, .byt .ora Mode.indirectIndexed, .imp .uStp, .byt .uSlo Mode.indirectIndexed, .byt .uNop Mode.zeroPageX, .byt .ora Mode.zeroPageX, .byt .asl Mode.zeroPageX, .byt .uSlo Mode.zeroPageX, .imp .clc, .adr .ora Mode.absoluteY, .imp .uNop, .adr .uSlo Mode.absoluteY, .adr .uNop Mode.absoluteX, .adr .ora Mode.absoluteX, .adr .asl Mode.absoluteX, .adr .uSlo Mode.absoluteX ]

/-- Opcode table row 0x20-0x2F. -/
def decodeRow2 : List DecEntry :=
  [ .adr .jsr Mode.absolute, .byt .opAnd Mode.indexedIndirect, .imp .uStp, .byt .uRla Mode.indexedIndirect, .byt .bit Mode.zeroPage, .byt .opAnd Mode.zeroPage, .byt .rol Mode.zeroPage, .byt .uRla Mode.zeroPage, .imp .plp, .byt .opAnd Mode.immediate, .acc .rol, .ill, .adr .bit Mode.absolute, .adr .opAnd Mode.absolute, .adr .rol Mode.absolute, .adr .uRla Mode.absolute ]

/-- Opcode table row 0x30-0x3F. -/
def decodeRow3 : List DecEntry :=
  [ .rel .bmi, .byt .opAnd Mode.indirectIndexed, .imp .uStp, .byt .uRla Mode.indirectIndexed, .byt .uNop Mode.zeroPageX, .byt .opAnd Mode.zeroPageX, .byt .rol Mode.zeroPageX, .byt .uRla Mode.zeroPageX, .imp .sec, .adr .opAnd Mode.absoluteY, .imp .uNop, .adr .uRla Mode.absoluteY, .adr .uNop Mode.absoluteX, .adr .opAnd Mode.absoluteX, .adr .rol Mode.absoluteX, .adr .uRla Mode.absoluteX ]

/-- Opcode table row 0x40-0x4F. -/
def decodeRow4 : List DecEntry :=
  [ .imp .rti, .byt .eor Mode.indexedIndirect, .imp .uStp, .byt .uSre Mode.indexedIndirect, .byt .uNop Mode.zeroPage, .byt .eor Mode.zeroPage, .byt .lsr Mode.zeroPage, .byt .uSre Mode.zeroPage, .imp .pha, .byt .eor Mode.immediate, .acc .lsr, .ill, .adr .jmp Mode.absolute, .adr .eor Mode.absolute, .adr .lsr Mode.absolute, .adr .uSre Mode.absolute ]

/-- Opcode table row 0x50-0x5F. -/
def decodeRow5 : List DecEntry :=
  [ .rel .bvc, .byt .eor Mode.indirectIndexed, .imp .uStp, .byt .uSre Mode.indirectIndexed, .byt .uNop Mode.zeroPageX, .byt .eor Mode.zeroPageX, .byt .lsr Mode.zeroPageX, .byt .uSre Mode.zeroPageX, .imp .cli, .adr .eor Mode.absoluteY, .imp .uNop, .adr .uSre Mode.absoluteY, .adr .uNop Mode.absoluteX, .adr .eor Mode.absoluteX, .adr .lsr Mode.absoluteX, .adr .uSre Mode.absoluteX ]

/-- Opcode table row 0x60-0x6F. -/
def decodeRow6 : List DecEntry :=
  [ .imp .rts, .byt .adc Mode.indexedIndirect, .imp .uStp, .byt .uRra Mode.indexedIndirect, .byt .uNop Mode.zeroPage, .byt .adc Mode.zeroPage, .byt .ror Mode.zeroPage, .byt .uRra Mode.zeroPage, .imp .pla, .byt .adc Mode.immediate, .acc .ror, .ill, .adr .jmp Mode.indirect, .adr .adc Mode.absolute, .adr .ror Mode.absolute, .adr .uRra Mode.absolute ]

/-- Opcode table row 0x70-0x7F. -/
def decodeRow7 : List DecEntry :=
  [ .rel .bvs, .byt .adc Mode.indirectIndexed, .imp .uStp, .byt .uRra Mode.indirectIndexed, .byt .uNop Mode.zeroPageX, .byt .adc Mode.zeroPageX, .byt .ror Mode.zeroPageX, .byt .uRra Mode.zeroPageX, .imp .sei, .adr .adc Mode.absoluteY, .imp .uNop, .adr .uRra Mode.absoluteY, .adr .uNop Mode.absoluteX, .adr .adc Mode.absoluteX, .adr .ror Mode.absoluteX, .adr .uRra Mode.absoluteX ]

/-- Opcode table row 0x80-0x8F. -/
def decodeRow8 : List DecEntry :=
  [ .byt .uNop Mode.immediate, .byt .sta Mode.indexedIndirect, .byt .uNop Mode.immediate, .byt .uSax Mode.indexedIndirect, .byt .sty Mode.zeroPage, .byt .sta Mode.zeroPage, .byt .stx Mode.zeroPage, .byt .uSax Mode.zeroPage, .imp .dey, .byt .uNop Mode.immediate, .imp .txa, .ill, .adr .sty Mode.absolute, .adr .sta Mode.absolute, .adr .stx Mode.absolute, .adr .uSax Mode.absolute ]

/-- Opcode table row 0x90-0x9F. -/
def decodeRow9 : List DecEntry :=
  [ .rel .bcc, .byt .sta Mode.indirectIndexed, .imp .uStp, .ill, .byt .sty Mode.zeroPageX, .byt .sta Mode.zeroPageX, .byt .stx Mode.zeroPageY, .byt .uSax Mode.zeroPageY, .imp .tya, .adr .sta Mode.absoluteY, .imp .txs, .ill, .ill, .adr .sta Mode.absoluteX, .ill, .ill ]

/-- Opcode table row 0xA0-0xAF. -/
def decodeRowA : List DecEntry :=
  [ .byt .ldy Mode.immediate, .byt .lda Mode.indexedIndirect, .byt .ldx Mode.immediate, .byt .uLax Mode.indexedIndirect, .byt .ldy Mode.zeroPage, .byt .lda Mode.zeroPage, .byt .ldx Mode.zeroPage, .byt .uLax Mode.zeroPage, .imp .tay, .byt .lda Mode.immediate, .imp .tax, .ill, .adr .ldy Mode.absolute, .adr .lda Mode.absolute, .adr .ldx Mode.absolute, .adr .uLax Mode.absolute ]

/-- Opcode table row 0xB0-0xBF. -/
def decodeRowB : List DecEntry :=
  [ .rel .bcs, .byt .lda Mode.indirectIndexed, .imp .uStp, .byt .uLax Mode.indirectIndexed, .byt .ldy Mode.zeroPageX, .byt .lda Mode.zeroPageX, .byt .ldx Mode.zeroPageY, .byt .uLax Mode.zeroPageY, .imp .clv, .adr .lda Mode.absoluteY, .imp .tsx, .ill, .adr .ldy Mode.absoluteX, .adr .lda Mode.absoluteX, .adr .ldx Mode.absoluteY, .adr .uLax Mode.absoluteY ]

/-- Opcode table row 0xC0-0xCF. -/
def decodeRowC : List DecEntry :=
  [ .byt .cpy Mode.immediate, .byt .cmp Mode.indexedIndirect, .byt .uNop Mode.immediate, .byt .uDcp Mode.indexedIndirect, .byt .cpy Mode.zeroPage, .byt .cmp Mode.zeroPage, .byt .dec Mode.zeroPage, .byt .uDcp Mode.zeroPage, .imp .iny, .byt .cmp Mode.immediate, .imp .dex, .ill, .adr .cpy Mode.absolute, .adr .cmp Mode.absolute, .adr .dec Mode.absolute, .adr .uDcp Mode.absolute ]

/-- Opcode table row 0xD0-0xDF. -/
def decodeRowD : List DecEntry :=
  [ .rel .bne, .byt .cmp Mode.indirectIndexed, .imp .uStp, .byt .uDcp Mode.indirectIndexed, .byt .uNop Mode.zeroPageX, .byt .cmp Mode.zeroPageX, .byt .dec Mode.zeroPageX, .byt .uDcp Mode.zeroPageX, .imp .cld, .adr .cmp Mode.absoluteY, .imp .uNop, .adr .uDcp Mode.absoluteY, .adr .uNop Mode.absoluteX, .adr .cmp Mode.absoluteX, .adr .dec Mode.absoluteX, .adr .uDcp Mode.absoluteX ]

/-- Opcode table row 0xE0-0xEF. -/
def decodeRowE : List DecEntry :=
  [ .byt .cpx Mode.immediate, .byt .sbc Mode.indexedIndirect, .byt .uNop Mode.immediate, .byt .uIsb Mode.indexedIndirect, .byt .cpx Mode.zeroPage, .byt .sbc Mode.zeroPage, .byt .inc Mode.zeroPage, .byt .uIsb Mode.zeroPage, .imp .inx, .byt .sbc Mode.immediate, .imp .nop, .byt .sbc Mode.immediate, .adr .cpx Mode.absolute, .adr .sbc Mode.absolute, .adr .inc Mode.absolute, .adr .uIsb Mode.absolute ]

/-- Opcode table row 0xF0-0xFF. -/
def decodeRowF : List DecEntry :=
  [ .rel .beq, .byt .sbc Mode.indirectIndexed, .imp .uStp, .byt .uIsb Mode.indirectIndexed, .byt .uNop Mode.zeroPageX, .byt .sbc Mode.zeroPageX, .byt .inc Mode.zeroPageX, .byt .uIsb Mode.zeroPageX, .imp .sed, .adr .sbc Mode.absoluteY, .imp .uNop, .adr .uIsb Mode.absoluteY, .adr .uNop Mode.absoluteX, .adr .sbc Mode.absoluteX, .adr .inc Mode.absoluteX, .adr .uIsb Mode.absoluteX ]

/-- The fixed 256-entry opcode table of Instruction::fetch, in opcode order
0x00-0xFF, sixteen entries per row. -/
def decodeTable : List DecEntry :=
  decodeRow0 ++ decodeRow1 ++ decodeRow2 ++ decodeRow3 ++ decodeRow4 ++
  decodeRow5 ++ decodeRow6 ++ decodeRow7 ++ decodeRow8 ++ decodeRow9 ++
  decodeRowA ++ decodeRowB ++ decodeRowC ++ decodeRowD ++ decodeRowE ++
  decodeRowF

/-- Instruction::fetch: read the opcode at pc, advance pc, read the operand
bytes dictated by the opcode (advancing pc further), and return the decoded
instruction together with the opcode byte and the advanced pc.  The twelve
unstable undocumented opcodes panic (here: `illegalOpcode`). -/
def Instr.fetch (B : BusModel σ) (s : σ) (pc : Nat) :
    Except Err (Instr × Nat × Nat × σ) :=
  let (opcode, pc1, s1) := readByte B s pc
  match List.getD decodeTable opcode DecEntry.ill with
  | .imp op => .ok ((op, .implicit), opcode, pc1, s1)
  | .acc op => .ok ((op, .accumulator), opcode, pc1, s1)
  | .byt op mk =>
    let (b, pc2, s2) := readByte B s1 pc1
    .ok ((op, mk b), opcode, pc2, s2)
  | .rel op =>
    let (b, pc2, s2) := readByte B s1 pc1
    .ok ((op, .relative (asI8 b)), opcode, pc2, s2)
  | .adr op mk =>
    let (a, pc2, s2) := readAddrOperand B s1 pc1
    .ok ((op, mk a), opcode, pc2, s2)
  | .ill => .error (.illegalOpcode pc opcode)

/-- CYCLE_TABLE of src/cpu/mod.rs (per-opcode cycle costs). -/
def cycleList : List Nat :=
  [ 7, 6, 2, 8, 3, 3, 5, 5, 3, 2, 2, 2, 4, 4, 6, 6
  , 2, 5, 2, 8, 4, 4, 6, 6, 2, 4, 2, 7, 4, 4, 7, 7
  , 6, 6, 2, 8, 3, 3, 5, 5, 4, 2, 2, 2, 4, 4, 6, 6
  , 2, 5, 2, 8, 4, 4, 6, 6, 2, 4, 2, 7, 4, 4, 7, 7
  , 6, 6, 2, 8, 3, 3, 5, 5, 3, 2, 2, 2, 3, 4, 6, 6
  , 2, 5, 2, 8, 4, 4, 6, 6, 2, 4, 2, 7, 4, 4, 7, 7
  , 6, 6, 2, 8, 3, 3, 5, 5, 4, 2, 2, 2, 5, 4, 6, 6
  , 2, 5, 2, 8, 4, 4, 6, 6, 2, 4, 2, 7, 4, 4, 7, 7
  , 2, 6, 2, 6, 3, 3, 3, 3, 2, 2, 2, 2, 4, 4, 4, 4
  , 2, 6, 2, 6, 4, 4, 4, 4, 2, 5, 2, 5, 5, 5, 5, 5
  , 2, 6, 2, 6, 3, 3, 3, 3, 2, 2, 2, 2, 4, 4, 4, 4
  , 2, 5, 2, 5, 4, 4, 4, 4, 2, 4, 2, 4, 4, 4, 4, 4
  , 2, 6, 2, 8, 3, 3, 5, 5, 2, 2, 2, 2, 4, 4, 6, 6
  , 2, 5, 2, 8, 4, 4, 6, 6, 2, 4, 2, 7, 4, 4, 7, 7
  , 2, 6, 3, 8, 3, 3, 5, 5, 2, 2, 2, 2, 4, 4, 6, 6
  , 2, 5, 2, 8, 4, 4, 6, 6, 2, 4, 2, 7, 4, 4, 7, 7 ]

/-- Cycle cost of an opcode byte. -/
def cycleTable (opcode : Nat) : Nat := cycleList.getD opcode 0

/-- Interrupt vectors (src/cpu/mod.rs): NMI, RESET, IRQ/BRK. -/
def NMI_VECTOR : Nat × Nat := (0xFFFA, 0xFFFB)

/-- RESET vector addresses. -/
def RESET_VECTOR : Nat × Nat := (0xFFFC, 0xFFFD)

/-- IRQ/BRK vector addresses. -/
def IRQ_VECTOR : Nat × Nat := (0xFFFE, 0xFFFF)

/-- Emulated MOS 6502 CPU state (struct Cpu in src/cpu/mod.rs). -/
structure Cpu where
  registers : Registers
  irq_pending : Bool
  cycles_remaining : Nat
  cycle : Nat
deriving Repr, DecidableEq

/-- Cpu::new. -/
def Cpu.new : Cpu :=
  { registers := Registers.new, irq_pending := false,
    cycles_remaining := 0, cycle := 0 }

/-- Cpu::stack — address of the next free stack slot ($0100 + S). -/
def Cpu.stack (c : Cpu) : Nat := (0x0100 + c.registers.s) % 65536

/-- Cpu::push_stack: store at the stack address, then S -= 1 (wrapping). -/
def Cpu.pushStack (B : BusModel σ) (c : Cpu) (s : σ) (value : Nat) : Cpu × σ :=
  let s1 := B.store s c.stack value
  ({ c with registers := { c.registers with s := (c.registers.s + 255) % 256 } }, s1)

/-- Cpu::pull_stack: S += 1 (wrapping), then load at the stack address. -/
def Cpu.pullStack (B : BusModel σ) (c : Cpu) (s : σ) : Nat × Cpu × σ :=
  let c1 := { c with registers := { c.registers with s := (c.registers.s + 1) % 256 } }
  let (v, s1) := B.load s c1.stack
  (v, c1, s1)

/-- Cpu::pull_flags: pull a byte and set P to it with UNUSED forced on and
BREAK forced off. -/
def Cpu.pullFlags (B : BusModel σ) (c : Cpu) (s : σ) : Cpu × σ :=
  let (bits, c1, s1) := Cpu.pullStack B c s
  ({ c1 with registers :=
    { c1.registers with
      p := Flags.remove (Flags.insert (Flags.fromBitsTruncate bits) Flags.UNUSED)
             Flags.BREAK } }, s1)

/-- Cpu::check_zero_or_negative: set ZERO when the value is 0 and NEGATIVE
when it is above 127. -/
def Cpu.checkZN (c : Cpu) (value : Nat) : Cpu :=
  let p1 := Flags.set c.registers.p Flags.ZERO (value == 0)
  let p2 := Flags.set p1 Flags.NEGATIVE (decide (127 < value))
  { c with registers := { c.registers with p := p2 } }

/-- twos_complement_overflow of src/cpu/mod.rs. -/
def twosComplementOverflow (n m res : Nat) : Bool :=
  decide (0 < (n ^^^ res) &&& (m ^^^ res) &&& 128)

/-- Replace the P byte of a CPU. -/
def Cpu.withP (c : Cpu) (p : Nat) : Cpu :=
  { c with registers := { c.registers with p := p } }

/-- Replace the PC of a CPU. -/
def Cpu.withPC (c : Cpu) (pc : Nat) : Cpu :=
  { c with registers := { c.registers with pc := pc } }

/-- Cpu::interrupt: push PC+1 (high then low), push P with BREAK set to the
brk argument, set INTERRUPT_DISABLE, jump through the vector, and add 7 to
the cycle counter. -/
def Cpu.interrupt (B : BusModel σ) (c : Cpu) (s : σ) (vector : Nat × Nat)
    (brk : Bool) : Cpu × σ :=
  let ret := (c.registers.pc + 1) % 65536
  let (c1, s1) := Cpu.pushStack B c s (ret / 256 % 256)
  let (c2, s2) := Cpu.pushStack B c1 s1 (ret % 256)
  let flags := Flags.set c2.registers.p Flags.BREAK brk
  let (c3, s3) := Cpu.pushStack B c2 s2 flags
  let c4 := c3.withP (Flags.insert c3.registers.p Flags.INTERRUPT_DISABLE)
  let (lowv, s4) := B.load s3 vector.1
  let (highv, s5) := B.load s4 vector.2
  ({ c4 with
      registers := { c4.registers with pc := mkAddr lowv highv },
      cycle := c4.cycle + 7 }, s5)

/-- Cpu::adc — add with carry (src/cpu/mod.rs lines 522-538). -/
def Cpu.adc (am : Mode) (B : BusModel σ) (c : Cpu) (s : σ) :
    Except Err (Cpu × σ) :=
  match am.load B s c.registers with
  | .error e => .error e
  | .ok (value, s1) =>
    let carryIn : Nat := if Flags.contains c.registers.p Flags.CARRY then 1 else 0
    let res16 := c.registers.a + value + carryIn
    let carryOut := decide (255 < res16)
    let res := res16 % 256
    let overflow := twosComplementOverflow c.registers.a value res
    let p1 := Flags.set c.registers.p Flags.OVERFLOW overflow
    let p2 := Flags.set p1 Flags.CARRY carryOut
    let c1 := { c with registers := { c.registers with a := res, p := p2 } }
    .ok (c1.checkZN res, s1)

/-- Cpu::and — logical AND. -/
def Cpu.opAnd (am : Mode) (B : BusModel σ) (c : Cpu) (s : σ) :
    Except Err (Cpu × σ) :=
  match am.load B s c.registers with
  | .error e => .error e
  | .ok (value, s1) =>
    let a1 := c.registers.a &&& value
    let c1 := { c with registers := { c.registers with a := a1 } }
    .ok (c1.checkZN a1, s1)

/-- Cpu::asl — arithmetic shift left (u8 shift discards the top bit). -/
def Cpu.asl (am : Mode) (B : BusModel σ) (c : Cpu) (s : σ) :
    Except Err (Cpu × σ) :=
  match am.load B s c.registers with
  | .error e => .error e
  | .ok (value, s1) =>
    let res := value * 2 % 256
    match am.store B s1 c.registers res with
    | .error e => .error e
    | .ok (r1, s2) =>
      let c1 := { c with registers := r1 }
      let c2 := c1.withP (Flags.set c1.registers.p Flags.CARRY
        (decide (0 < value &&& 128)))
      .ok (c2.checkZN res, s2)

/-- Branch helper shared by the eight branch handlers: when the condition
holds, set PC to the Relative target. -/
def Cpu.branchIf (cond : Bool) (am : Mode) (B : BusModel σ) (c : Cpu) (s : σ) :
    Except Err (Cpu × σ) :=
  if cond then
    match am.address B s c.registers with
    | .error e => .error e
    | .ok (addr, s1) => .ok (c.withPC addr, s1)
  else .ok (c, s)

/-- Cpu::bit — bit test. -/
def Cpu.bit (am : Mode) (B : BusModel σ) (c : Cpu) (s : σ) :
    Except Err (Cpu × σ) :=
  match am.load B s c.registers with
  | .error e => .error e
  | .ok (value, s1) =>
    let res := c.registers.a &&& value
    let p1 := Flags.set c.registers.p Flags.ZERO (res == 0)
    let p2 := Flags.set p1 Flags.OVERFLOW (decide (0 < value &&& 64))
    let p3 := Flags.set p2 Flags.NEGATIVE (decide (0 < value &&& 128))
    .ok (c.withP p3, s1)

/-- Compare helper shared by CMP/CPX/CPY: wrapping subtract, CARRY iff no
underflow, then Z/N from the difference. -/
def Cpu.compare (reg : Nat) (am : Mode) (B : BusModel σ) (c : Cpu) (s : σ) :
    Except Err (Cpu × σ) :=
  match am.load B s c.registers with
  | .error e => .error e
  | .ok (value, s1) =>
    let res := (reg + 256 - value) % 256
    let overflowed := decide (reg < value)
    let c1 := c.withP (Flags.set c.registers.p Flags.CARRY (!overflowed))
    .ok (c1.checkZN res, s1)

/-- Cpu::dec — decrement memory with 8-bit wrap. -/
def Cpu.dec (am : Mode) (B : BusModel σ) (c : Cpu) (s : σ) :
    Except Err (Cpu × σ) :=
  match am.load B s c.registers with
  | .error e => .error e
  | .ok (value, s1) =>
    let res := (value + 255) % 256
    match am.store B s1 c.registers res with
    | .error e => .error e
    | .ok (r1, s2) => .ok (({ c with registers := r1 }).checkZN res, s2)

/-- Cpu::dex. -/
def Cpu.dex (c : Cpu) : Cpu :=
  let x1 := (c.registers.x + 255) % 256
  ({ c with registers := { c.registers with x := x1 } }).checkZN x1

/-- Cpu::dey. -/
def Cpu.dey (c : Cpu) : Cpu :=
  let y1 := (c.registers.y + 255) % 256
  ({ c with registers := { c.registers with y := y1 } }).checkZN y1

/-- Cpu::eor — exclusive OR. -/
def Cpu.eor (am : Mode) (B : BusModel σ) (c : Cpu) (s : σ) :
    Except Err (Cpu × σ) :=
  match am.load B s c.registers with
  | .error e => .error e
  | .ok (value, s1) =>
    let a1 := c.registers.a ^^^ value
    let c1 := { c with registers := { c.registers with a := a1 } }
    .ok (c1.checkZN a1, s1)

/-- Cpu::inc — increment memory with 8-bit wrap. -/
def Cpu.inc (am : Mode) (B : BusModel σ) (c : Cpu) (s : σ) :
    Except Err (Cpu × σ) :=
  match am.load B s c.registers with
  | .error e => .error e
  | .ok (value, s1) =>
    let res := (value + 1) % 256
    match am.store B s1 c.registers res with
    | .error e => .error e
    | .ok (r1, s2) => .ok (({ c with registers := r1 }).checkZN res, s2)

/-- Cpu::inx. -/
def Cpu.inx (c : Cpu) : Cpu :=
  let x1 := (c.registers.x + 1) % 256
  ({ c with registers := { c.registers with x := x1 } }).checkZN x1

/-- Cpu::iny. -/
def Cpu.iny (c : Cpu) : Cpu :=
  let y1 := (c.registers.y + 1) % 256
  ({ c with registers := { c.registers with y := y1 } }).checkZN y1

/-- Cpu::jmp — set PC to the effective address. -/
def Cpu.jmp (am : Mode) (B : BusModel σ) (c : Cpu) (s : σ) :
    Except Err (Cpu × σ) :=
  match am.address B s c.registers with
  | .error e => .error e
  | .ok (addr, s1) => .ok (c.withPC addr, s1)

/-- Cpu::jsr — push PC-1 (high then low) and jump. -/
def Cpu.jsr (am : Mode) (B : BusModel σ) (c : Cpu) (s : σ) :
    Except Err (Cpu × σ) :=
  let ret := (c.registers.pc + 65535) % 65536
  let (c1, s1) := Cpu.pushStack B c s (ret / 256 % 256)
  let (c2, s2) := Cpu.pushStack B c1 s1 (ret % 256)
  match am.address B s2 c2.registers with
  | .error e => .error e
  | .ok (addr, s3) => .ok (c2.withPC addr, s3)

/-- Cpu::lda. -/
def Cpu.lda (am : Mode) (B : BusModel σ) (c : Cpu) (s : σ) :
    Except Err (Cpu × σ) :=
  match am.load B s c.registers with
  | .error e => .error e
  | .ok (value, s1) =>
    .ok (({ c with registers := { c.registers with a := value } }).checkZN value, s1)

/-- Cpu::ldx. -/
def Cpu.ldx (am : Mode) (B : BusModel σ) (c : Cpu) (s : σ) :
    Except Err (Cpu × σ) :=
  match am.load B s c.registers with
  | .error e => .error e
  | .ok (value, s1) =>
    .ok (({ c with registers := { c.registers with x := value } }).checkZN value, s1)

/-- Cpu::ldy. -/
def Cpu.ldy (am : Mode) (B : BusModel σ) (c : Cpu) (s : σ) :
    Except Err (Cpu × σ) :=
  match am.load B s c.registers with
  | .error e => .error e
  | .ok (value, s1) =>
    .ok (({ c with registers := { c.registers with y := value } }).checkZN value, s1)

/-- Cpu::lsr — logical shift right. -/
def Cpu.lsr (am : Mode) (B : BusModel σ) (c : Cpu) (s : σ) :
    Except Err (Cpu × σ) :=
  match am.load B s c.registers with
  | .error e => .error e
  | .ok (value, s1) =>
    let res := value / 2
    match am.store B s1 c.registers res with
    | .error e => .error e
    | .ok (r1, s2) =>
      let c1 := { c with registers := r1 }
      let c2 := c1.withP (Flags.set c1.registers.p Flags.CARRY
        (decide (0 < value &&& 1)))
      .ok (c2.checkZN res, s2)

/-- Cpu::ora — inclusive OR. -/
def Cpu.ora (am : Mode) (B : BusModel σ) (c : Cpu) (s : σ) :
    Except Err (Cpu × σ) :=
  match am.load B s c.registers with
  | .error e => .error e
  | .ok (value, s1) =>
    let a1 := c.registers.a ||| value
    let c1 := { c with registers := { c.registers with a := a1 } }
    .ok (c1.checkZN a1, s1)

/-- Cpu::pha — push accumulator. -/
def Cpu.pha (B : BusModel σ) (c : Cpu) (s : σ) : Cpu × σ :=
  Cpu.pushStack B c s c.registers.a

/-- Cpu::php — push P with UNUSED and BREAK forced on in the pushed byte. -/
def Cpu.php (B : BusModel σ) (c : Cpu) (s : σ) : Cpu × σ :=
  Cpu.pushStack B c s
    (Flags.insert (Flags.insert c.registers.p Flags.UNUSED) Flags.BREAK)

/-- Cpu::pla — pull accumulator and set Z/N. -/
def Cpu.pla (B : BusModel σ) (c : Cpu) (s : σ) : Cpu × σ :=
  let (v, c1, s1) := Cpu.pullStack B c s
  (({ c1 with registers := { c1.registers with a := v } }).checkZN v, s1)

/-- Cpu::rol — rotate left through carry. -/
def Cpu.rol (am : Mode) (B : BusModel σ) (c : Cpu) (s : σ) :
    Except Err (Cpu × σ) :=
  match am.load B s c.registers with
  | .error e => .error e
  | .ok (value, s1) =>
    let oldCarry : Nat := if Flags.contains c.registers.p Flags.CARRY then 1 else 0
    let newCarry := decide (0 < value &&& 128)
    let res := value * 2 % 256 ||| oldCarry
    match am.store B s1 c.registers res with
    | .error e => .error e
    | .ok (r1, s2) =>
      let c1 := { c with registers := r1 }
      let c2 := c1.withP (Flags.set c1.registers.p Flags.CARRY newCarry)
      .ok (c2.checkZN res, s2)

/-- Cpu::ror — rotate right through carry. -/
def Cpu.ror (am : Mode) (B : BusModel σ) (c : Cpu) (s : σ) :
    Except Err (Cpu × σ) :=
  match am.load B s c.registers with
  | .error e => .error e
  | .ok (value, s1) =>
    let oldCarry : Nat := if Flags.contains c.registers.p Flags.CARRY then 1 else 0
    let newCarry := decide (0 < value &&& 1)
    let res := value / 2 ||| oldCarry * 128
    match am.store B s1 c.registers res with
    | .error e => .error e
    | .ok (r1, s2) =>
      let c1 := { c with registers := r1 }
      let c2 := c1.withP (Flags.set c1.registers.p Flags.CARRY newCarry)
      .ok (c2.checkZN res, s2)

/-- Cpu::rti — pull flags, then pull PC (low then high); no increment. -/
def Cpu.rti (B : BusModel σ) (c : Cpu) (s : σ) : Cpu × σ :=
  let (c1, s1) := Cpu.pullFlags B c s
  let (low, c2, s2) := Cpu.pullStack B c1 s1
  let (high, c3, s3) := Cpu.pullStack B c2 s2
  (c3.withPC (mkAddr low high), s3)

/-- Cpu::rts — pull PC (low then high) and add one. -/
def Cpu.rts (B : BusModel σ) (c : Cpu) (s : σ) : Cpu × σ :=
  let (low, c1, s1) := Cpu.pullStack B c s
  let (high, c2, s2) := Cpu.pullStack B c1 s1
  (c2.withPC ((mkAddr low high + 1) % 65536), s2)

/-- Cpu::sbc — subtract with carry (i16 arithmetic, then truncate to u8). -/
def Cpu.sbc (am : Mode) (B : BusModel σ) (c : Cpu) (s : σ) :
    Except Err (Cpu × σ) :=
  match am.load B s c.registers with
  | .error e => .error e
  | .ok (value, s1) =>
    let carryIn : Nat := if Flags.contains c.registers.p Flags.CARRY then 0 else 1
    let carryOut := decide (value + carryIn ≤ c.registers.a)
    let res := (c.registers.a + 512 - value - carryIn) % 256
    let overflow := twosComplementOverflow c.registers.a (255 ^^^ value) res
    let p1 := Flags.set c.registers.p Flags.OVERFLOW overflow
    let p2 := Flags.set p1 Flags.CARRY carryOut
    let c1 := { c with registers := { c.registers with a := res, p := p2 } }
    .ok (c1.checkZN res, s1)

/-- Cpu::sta. -/
def Cpu.sta (am : Mode) (B : BusModel σ) (c : Cpu) (s : σ) :
    Except Err (Cpu × σ) :=
  match am.store B s c.registers c.registers.a with
  | .error e => .error e
  | .ok (r1, s1) => .ok ({ c with registers := r1 }, s1)

/-- Cpu::stx. -/
def Cpu.stx (am : Mode) (B : BusModel σ) (c : Cpu) (s : σ) :
    Except Err (Cpu × σ) :=
  match am.store B s c.registers c.registers.x with
  | .error e => .error e
  | .ok (r1, s1) => .ok ({ c with registers := r1 }, s1)

/-- Cpu::sty. -/
def Cpu.sty (am : Mode) (B : BusModel σ) (c : Cpu) (s : σ) :
    Except Err (Cpu × σ) :=
  match am.store B s c.registers c.registers.y with
  | .error e => .error e
  | .ok (r1, s1) => .ok ({ c with registers := r1 }, s1)

/-- Cpu::tax. -/
def Cpu.tax (c : Cpu) : Cpu :=
  ({ c with registers := { c.registers with x := c.registers.a } }).checkZN c.registers.a

/-- Cpu::tay. -/
def Cpu.tay (c : Cpu) : Cpu :=
  ({ c with registers := { c.registers with y := c.registers.a } }).checkZN c.registers.a

/-- Cpu::tsx. -/
def Cpu.tsx (c : Cpu) : Cpu :=
  ({ c with registers := { c.registers with x := c.registers.s } }).checkZN c.registers.s

/-- Cpu::txa. -/
def Cpu.txa (c : Cpu) : Cpu :=
  ({ c with registers := { c.registers with a := c.registers.x } }).checkZN c.registers.x

/-- Cpu::txs — no flag updates. -/
def Cpu.txs (c : Cpu) : Cpu :=
  { c with registers := { c.registers with s := c.registers.x } }

/-- Cpu::tya. -/
def Cpu.tya (c : Cpu) : Cpu :=
  ({ c with registers := { c.registers with a := c.registers.y } }).checkZN c.registers.y

/-- Cpu::undoc_sax — store A AND X, no flag updates. -/
def Cpu.uSax (am : Mode) (B : BusModel σ) (c : Cpu) (s : σ) :
    Except Err (Cpu × σ) :=
  match am.store B s c.registers (c.registers.a &&& c.registers.x) with
  | .error e => .error e
  | .ok (r1, s1) => .ok ({ c with registers := r1 }, s1)

/-- Sequence two fallible CPU actions (the undocumented compositions run two
documented handlers on the same addressing mode). -/
def exSeq (f g : Cpu → σ → Except Err (Cpu × σ)) (c : Cpu) (s : σ) :
    Except Err (Cpu × σ) :=
  match f c s with
  | .error e => .error e
  | .ok (c1, s1) => g c1 s1

/-- Cpu::exec — dispatch one decoded instruction (the big match in
src/cpu/mod.rs).  Implicit operations ignore the mode; NOP and the
undocumented NOP variants have no effect; STP panics. -/
def Cpu.exec (B : BusModel σ) (c : Cpu) (s : σ) (i : Instr) :
    Except Err (Cpu × σ) :=
  match i.1 with
  | .adc => Cpu.adc i.2 B c s
  | .opAnd => Cpu.opAnd i.2 B c s
  | .asl => Cpu.asl i.2 B c s
  | .bcc => Cpu.branchIf (!Flags.contains c.registers.p Flags.CARRY) i.2 B c s
  | .bcs => Cpu.branchIf (Flags.contains c.registers.p Flags.CARRY) i.2 B c s
  | .beq => Cpu.branchIf (Flags.contains c.registers.p Flags.ZERO) i.2 B c s
  | .bit => Cpu.bit i.2 B c s
  | .bmi => Cpu.branchIf (Flags.contains c.registers.p Flags.NEGATIVE) i.2 B c s
  | .bne => Cpu.branchIf (!Flags.contains c.registers.p Flags.ZERO) i.2 B c s
  | .bpl => Cpu.branchIf (!Flags.contains c.registers.p Flags.NEGATIVE) i.2 B c s
  | .brk => .ok (Cpu.interrupt B c s IRQ_VECTOR true)
  | .bvc => Cpu.branchIf (!Flags.contains c.registers.p Flags.OVERFLOW) i.2 B c s
  | .bvs => Cpu.branchIf (Flags.contains c.registers.p Flags.OVERFLOW) i.2 B c s
  | .clc => .ok (c.withP (Flags.remove c.registers.p Flags.CARRY), s)
  | .cld => .ok (c.withP (Flags.remove c.registers.p Flags.DECIMAL), s)
  | .cli => .ok (c.withP (Flags.remove c.registers.p Flags.INTERRUPT_DISABLE), s)
  | .clv => .ok (c.withP (Flags.remove c.registers.p Flags.OVERFLOW), s)
  | .cmp => Cpu.compare c.registers.a i.2 B c s
  | .cpx => Cpu.compare c.registers.x i.2 B c s
  | .cpy => Cpu.compare c.registers.y i.2 B c s
  | .dec => Cpu.dec i.2 B c s
  | .dex => .ok (c.dex, s)
  | .dey => .ok (c.dey, s)
  | .eor => Cpu.eor i.2 B c s
  | .inc => Cpu.inc i.2 B c s
  | .inx => .ok (c.inx, s)
  | .iny => .ok (c.iny, s)
  | .jmp => Cpu.jmp i.2 B c s
  | .jsr => Cpu.jsr i.2 B c s
  | .lda => Cpu.lda i.2 B c s
  | .ldx => Cpu.ldx i.2 B c s
  | .ldy => Cpu.ldy i.2 B c s
  | .lsr => Cpu.lsr i.2 B c s
  | .nop => .ok (c, s)
  | .ora => Cpu.ora i.2 B c s
  | .pha => .ok (Cpu.pha B c s)
  | .php => .ok (Cpu.php B c s)
  | .pla => .ok (Cpu.pla B c s)
  | .plp => .ok (Cpu.pullFlags B c s)
  | .rol => Cpu.rol i.2 B c s
  | .ror => Cpu.ror i.2 B c s
  | .rti => .ok (Cpu.rti B c s)
  | .rts => .ok (Cpu.rts B c s)
  | .sbc => Cpu.sbc i.2 B c s
  | .sec => .ok (c.withP (Flags.insert c.registers.p Flags.CARRY), s)
  | .sed => .ok (c.withP (Flags.insert c.registers.p Flags.DECIMAL), s)
  | .sei => .ok (c.withP (Flags.insert c.registers.p Flags.INTERRUPT_DISABLE), s)
  | .sta => Cpu.sta i.2 B c s
  | .stx => Cpu.stx i.2 B c s
  | .sty => Cpu.sty i.2 B c s
  | .tax => .ok (c.tax, s)
  | .tay => .ok (c.tay, s)
  | .tsx => .ok (c.tsx, s)
  | .txa => .ok (c.txa, s)
  | .txs => .ok (c.txs, s)
  | .tya => .ok (c.tya, s)
  | .uDcp => exSeq (Cpu.dec i.2 B) (fun c1 s1 => Cpu.compare c1.registers.a i.2 B c1 s1) c s
  | .uIsb => exSeq (Cpu.inc i.2 B) (Cpu.sbc i.2 B) c s
  | .uLax => exSeq (Cpu.lda i.2 B) (Cpu.ldx i.2 B) c s
  | .uNop => .ok (c, s)
  | .uRla => exSeq (Cpu.rol i.2 B) (Cpu.opAnd i.2 B) c s
  | .uRra => exSeq (Cpu.ror i.2 B) (Cpu.adc i.2 B) c s
  | .uSax => Cpu.uSax i.2 B c s
  | .uSlo => exSeq (Cpu.asl i.2 B) (Cpu.ora i.2 B) c s
  | .uSre => exSeq (Cpu.lsr i.2 B) (Cpu.eor i.2 B) c s
  | .uStp => .error .stp

/-- Everything Cpu::step does before the infinite-loop check: service a
pending IRQ when interrupts are enabled, fetch and decode at PC, and
execute.  Returns the resulting state together with the opcode byte. -/
def Cpu.stepInner (B : BusModel σ) (c : Cpu) (s : σ) :
    Except Err (Cpu × σ × Nat) :=
  let (c0, s0) :=
    if c.irq_pending && !Flags.contains c.registers.p Flags.INTERRUPT_DISABLE then
      Cpu.interrupt B { c with irq_pending := false } s IRQ_VECTOR false
    else (c, s)
  match Instr.fetch B s0 c0.registers.pc with
  | .error e => .error e
  | .ok (instr, opcode, pc1, s1) =>
    match Cpu.exec B (c0.withPC pc1) s1 instr with
    | .error e => .error e
    | .ok (c2, s2) => .ok (c2, s2, opcode)

/-- Cpu::step — run stepInner, then panic when the program counter is
unchanged from the value saved at the very start of the step; otherwise
return the opcode's cycle cost from the cycle table. -/
def Cpu.step (B : BusModel σ) (c : Cpu) (s : σ) :
    Except Err (Cpu × σ × Nat) :=
  match Cpu.stepInner B c s with
  | .error e => .error e
  | .ok (c2, s2, opcode) =>
    if c.registers.pc = c2.registers.pc then .error .infiniteLoop
    else .ok (c2, s2, cycleTable opcode)

/-- Cpu::tick — on a fresh instruction boundary run step and keep cost-1
remaining cycles, otherwise burn one remaining cycle; always advance the
global cycle counter. -/
def Cpu.tick (B : BusModel σ) (c : Cpu) (s : σ) : Except Err (Cpu × σ) :=
  if c.cycles_remaining = 0 then
    match Cpu.step B c s with
    | .error e => .error e
    | .ok (c1, s1, cost) =>
      .ok ({ c1 with cycles_remaining := cost - 1, cycle := c1.cycle + 1 }, s1)
  else
    .ok ({ c with
            cycles_remaining := c.cycles_remaining - 1,
            cycle := c.cycle + 1 }, s)

/-- Cpu::reset — set INTERRUPT_DISABLE, load PC from the reset vector, set
the cycle counter to 7 and clear the remaining-cycles counter. -/
def Cpu.reset (B : BusModel σ) (c : Cpu) (s : σ) : Cpu × σ :=
  let c1 := c.withP (Flags.insert c.registers.p Flags.INTERRUPT_DISABLE)
  let (low, s1) := B.load s RESET_VECTOR.1
  let (high, s2) := B.load s1 RESET_VECTOR.2
  ({ c1 with
      registers := { c1.registers with pc := mkAddr low high },
      cycle := 7, cycles_remaining := 0 }, s2)

/-- Cpu::irq — when interrupts are disabled just mark the IRQ pending,
otherwise take the interrupt through the IRQ vector with BREAK=0. -/
def Cpu.irq (B : BusModel σ) (c : Cpu) (s : σ) : Cpu × σ :=
  if Flags.contains c.registers.p Flags.INTERRUPT_DISABLE then
    ({ c with irq_pending := true }, s)
  else
    Cpu.interrupt B c s IRQ_VECTOR false

/-- Cpu::nmi — unconditional interrupt through the NMI vector. -/
def Cpu.nmi (B : BusModel σ) (c : Cpu) (s : σ) : Cpu × σ :=
  Cpu.interrupt B c s NMI_VECTOR false

/-- One public transition of the CPU: a successful step or tick, or a
reset/irq/nmi call (these never panic). -/
inductive CpuTrans (B : BusModel σ) : Cpu × σ → Cpu × σ → Prop where
  | step : Cpu.step B c s = .ok (c2, s2, n) → CpuTrans B (c, s) (c2, s2)
  | tick : Cpu.tick B c s = .ok (c2, s2) → CpuTrans B (c, s) (c2, s2)
  | reset : Cpu.reset B c s = (c2, s2) → CpuTrans B (c, s) (c2, s2)
  | irq : Cpu.irq B c s = (c2, s2) → CpuTrans B (c, s) (c2, s2)
  | nmi : Cpu.nmi B c s = (c2, s2) → CpuTrans B (c, s) (c2, s2)

/-- States reachable from a freshly constructed CPU through any sequence of
step/tick/reset/irq/nmi calls, over any bus. -/
inductive Reachable (B : BusModel σ) : Cpu → σ → Prop where
  | init (s : σ) : Reachable B Cpu.new s
  | trans : Reachable B c s → CpuTrans B (c, s) (c2, s2) → Reachable B c2 s2

/-- PPU register file (struct Registers in src/ppu.rs).  The two-step latches
hold `Option` bytes exactly like the Rust `[Option<u8>; 2]`. -/
structure PpuRegisters where
  ctrl : Nat
  mask : Nat
  status : Nat
  oam_addr : Nat
  scroll : Option Nat × Option Nat
  addr : Option Nat × Option Nat
  most_recent_value : Nat
deriving Repr, DecidableEq

/-- Registers::default for the PPU register file. -/
def PpuRegisters.new : PpuRegisters :=
  { ctrl := 0, mask := 0, status := 0, oam_addr := 0,
    scroll := (none, none), addr := (none, none), most_recent_value := 0 }

/-- Abstract PPU-side bus (the PpuBus trait of src/ppu.rs): the mapper
receives the VRAM and palette by reference; a store may mutate all three. -/
structure PpuBusModel (μ : Type) where
  ppu_load : μ → (Nat → Nat) → (Nat → Nat) → Nat → Nat × μ
  ppu_store : μ → (Nat → Nat) → (Nat → Nat) → Nat → Nat → μ × (Nat → Nat) × (Nat → Nat)

/-- PPU state (struct Ppu in src/ppu.rs): registers, 2-KiB VRAM, 256-byte
OAM, 32-byte palette, and the cartridge-side mapper. -/
structure Ppu (μ : Type) where
  registers : PpuRegisters
  vram : Nat → Nat
  oam : Nat → Nat
  palette : Nat → Nat
  mapper : μ

/-- double_write of src/ppu.rs: the first write fills the first slot, the
second write fills the second, any further write is ignored. -/
def doubleWrite (reg : Option Nat × Option Nat) (value : Nat) :
    Option Nat × Option Nat :=
  match reg with
  | (none, none) => (some value, none)
  | (some first, none) => (some first, some value)
  | r => r

/-- read_ppuaddr of src/ppu.rs: the first latched byte is the high byte, the
second the low byte, with empty slots reading as 0. -/
def readPpuaddr (addr : Option Nat × Option Nat) : Nat :=
  mkAddr (addr.2.getD 0) (addr.1.getD 0)

/-- PALETTE_BASE_ADDR ($3F00). -/
def PALETTE_BASE_ADDR : Nat := 0x3F00

/-- Ppu::load (impl Bus for Ppu in src/ppu.rs).  The register is selected by
the low three address bits.  STATUS reads clear both latches, mix the status
byte with the data-bus latch, and clear bit 7 of the stored status; OAMDATA
reads OAM; DATA reads through the mapper or the palette at the address
latched in $2006; all other registers are write-only and return the data-bus
latch.  Every load updates the data-bus latch with the value moved. -/
def Ppu.load (P : PpuBusModel μ) (p : Ppu μ) (addr : Nat) : Nat × Ppu μ :=
  let (value, p1) :=
    match addr &&& 7 with
    | 2 =>
      let r1 := { p.registers with scroll := (none, none), addr := (none, none) }
      let value := r1.status ||| (0xE0 &&& r1.most_recent_value)
      let r2 := { r1 with status := r1.status &&& 0x7F }
      (value, { p with registers := r2 })
    | 4 => (p.oam p.registers.oam_addr, p)
    | 7 =>
      let a := readPpuaddr p.registers.addr
      if a < PALETTE_BASE_ADDR then
        let (v, m1) := P.ppu_load p.mapper p.vram p.palette a
        (v, { p with mapper := m1 })
      else
        (p.palette (a &&& 31), p)
    | _ => (p.registers.most_recent_value, p)
  (value, { p1 with registers := { p1.registers with most_recent_value := value } })

/-- Ppu::store (impl Bus for Ppu in src/ppu.rs).  Every store first updates
the data-bus latch; CTRL/MASK/OAMADDR store the byte, STATUS ignores writes,
OAMDATA writes OAM at oam_addr, SCROLL and ADDR feed their two-step latches,
DATA writes through the mapper or the palette at the address latched in
$2006. -/
def Ppu.store (P : PpuBusModel μ) (p : Ppu μ) (addr : Nat) (value : Nat) :
    Ppu μ :=
  let p0 := { p with registers := { p.registers with most_recent_value := value } }
  match addr &&& 7 with
  | 0 => { p0 with registers := { p0.registers with ctrl := value } }
  | 1 => { p0 with registers := { p0.registers with mask := value } }
  | 2 => p0
  | 3 => { p0 with registers := { p0.registers with oam_addr := value } }
  | 4 => { p0 with oam := Function.update p0.oam p0.registers.oam_addr value }
  | 5 => { p0 with registers :=
      { p0.registers with scroll := doubleWrite p0.registers.scroll value } }
  | 6 => { p0 with registers :=
      { p0.registers with addr := doubleWrite p0.registers.addr value } }
  | _ =>
    let a := readPpuaddr p0.registers.addr
    if a < PALETTE_BASE_ADDR then
      let (m1, v1, pal1) := P.ppu_store p0.mapper p0.vram p0.palette a value
      { p0 with mapper := m1, vram := v1, palette := pal1 }
    else
      { p0 with palette := Function.update p0.palette (a &&& 31) value }

/-- CPU-side NROM mapper (struct CpuMapper0 of src/mapper/mapper0.rs): owns
the PRG image (16 or 32 KiB, asserted at construction). -/
structure CpuMapper0 where
  prg : List Nat

/-- CpuMapper0::load: prg[(addr - 0x8000) % prg.len()].  The Rust `usize`
subtraction underflows (a panic under overflow checks) when the address is
below $8000, which the composed memory can route here for $4020-$7FFF. -/
def CpuMapper0.load (m : CpuMapper0) (addr : Nat) : Except Err Nat :=
  if addr < 0x8000 then .error .subUnderflow
  else .ok (m.prg.getD ((addr - 0x8000) % m.prg.length) 0)

/-- PPU-side NROM mapper (struct PpuMapper0 of src/mapper/mapper0.rs): owns
the 8-KiB CHR image; the mirroring tag is carried but unused. -/
structure PpuMapper0 where
  chr : List Nat

/-- NAMETABLES[0] ($2000), the base of the nametable region. -/
def NAMETABLE0 : Nat := 0x2000

/-- VRAM_SIZE (2 KiB). -/
def VRAM_SIZE : Nat := 2048

/-- PpuMapper0::ppu_load: below $2000 read CHR, at $3F00 and above read the
palette with 5-bit aliasing, otherwise index VRAM at addr - $2000 — the Rust
`vram.0[i]` panics when the index reaches past the 2-KiB array. -/
def PpuMapper0.ppu_load (m : PpuMapper0) (vram palette : Nat → Nat)
    (addr : Nat) : Except Err Nat :=
  if addr < NAMETABLE0 then .ok (m.chr.getD addr 0)
  else if 0x3F00 ≤ addr then .ok (palette (addr &&& 31))
  else if addr - NAMETABLE0 < VRAM_SIZE then .ok (vram (addr - NAMETABLE0))
  else .error .indexOutOfBounds

/-- PpuMapper0::ppu_store: the first branch takes every address at or above
$2000 to the VRAM write (so the palette branch below it is dead code), and
the VRAM indexing panics past the 2-KiB array; stores below $2000 fall
through and do nothing. -/
def PpuMapper0.ppu_store (_m : PpuMapper0) (vram palette : Nat → Nat)
    (addr value : Nat) : Except Err ((Nat → Nat) × (Nat → Nat)) :=
  if NAMETABLE0 ≤ addr then
    if addr - NAMETABLE0 < VRAM_SIZE then
      .ok (Function.update vram (addr - NAMETABLE0) value, palette)
    else .error .indexOutOfBounds
  else if 0x3F00 ≤ addr then
    .ok (vram, Function.update palette (addr &&& 31) value)
  else .ok (vram, palette)

/-- State borrowed by the composed Memory (struct Memory of src/mem/mod.rs):
system RAM, the PPU, and the CPU-side cartridge mapper. -/
structure MemSt (μ : Type) where
  ram : Nat → Nat
  ppu : Ppu μ
  mapper : CpuMapper0

/-- Memory::load routing (impl Bus for Memory in src/mem/mod.rs): below
$2000 RAM with 11-bit aliasing, below $4000 the PPU register port, below
$4020 the IO registers (reads return 0), and everything else the mapper. -/
def Memory.load (P : PpuBusModel μ) (st : MemSt μ) (addr : Nat) :
    Except Err (Nat × MemSt μ) :=
  if addr < 0x2000 then .ok (st.ram (addr &&& 2047), st)
  else if addr < 0x4000 then
    let (v, p1) := Ppu.load P st.ppu addr
    .ok (v, { st with ppu := p1 })
  else if addr < 0x4020 then .ok (0, st)
  else
    match st.mapper.load addr with
    | .error e => .error e
    | .ok v => .ok (v, st)

/-- Bus::load_range specialised to the composed memory: read `count` bytes
starting at `start + i`, threading the (possibly mutating) state. -/
def Memory.loadRange (P : PpuBusModel μ) (start : Nat) :
    Nat → Nat → MemSt μ → List Nat → Except Err (List Nat × MemSt μ)
  | 0, _, st, acc => .ok (acc.reverse, st)
  | count + 1, i, st, acc =>
    match Memory.load P st ((start + i) % 65536) with
    | .error e => .error e
    | .ok (v, st1) => Memory.loadRange P start count (i + 1) st1 (v :: acc)

/-- Memory::store routing, including the OAM-DMA trigger at $4014: a write
there reads 256 bytes from page value<<8 through the composed bus and
replaces the PPU OAM with them; other IO-register writes are ignored; mapper
stores are ignored by the NROM mapper. -/
def Memory.store (P : PpuBusModel μ) (st : MemSt μ) (addr value : Nat) :
    Except Err (MemSt μ) :=
  if addr < 0x2000 then
    .ok { st with ram := Function.update st.ram (addr &&& 2047) value }
  else if addr < 0x4000 then
    .ok { st with ppu := Ppu.store P st.ppu addr value }
  else if addr < 0x4020 then
    if addr = 0x4014 then
      match Memory.loadRange P (mkAddr 0 value) 256 0 st [] with
      | .error e => .error e
      | .ok (bytes, st1) =>
        .ok { st1 with ppu := { st1.ppu with oam := fun i => bytes.getD i 0 } }
    else .ok st
  else .ok st

/-! Concrete bus instances used by the theorems. -/

/-- The testing bus of src/mem/mod.rs (impl Bus for [u8; 0x10000]): a plain
64-KiB byte array, modelled as a function whose entries are read back modulo
256 (the element type is u8). -/
def ArrayBus : BusModel (Nat → Nat) :=
  { load := fun s a => (s a % 256, s),
    store := fun s a v => Function.update s a (v % 256),
    load_byte := fun s a => Nat.mod_lt _ (by norm_num) }

/-- A stateless bus that reads the same byte everywhere and drops stores. -/
def ConstBus (b : Nat) (hb : b < 256) : BusModel Unit :=
  { load := fun s _ => (b, s),
    store := fun s _ _ => s,
    load_byte := fun _ _ => hb }

/-- A bus that always reads zero and drops stores. -/
def UnitBus : BusModel Unit := ConstBus 0 (by norm_num)

/-- A trivial PPU-side mapper: loads return 0, stores are dropped. -/
def TrivPpuBus : PpuBusModel Unit :=
  { ppu_load := fun m _ _ _ => (0, m),
    ppu_store := fun m v pal _ _ => (m, v, pal) }

/-- A PPU in its power-on state over the trivial mapper. -/
def ppuNew : Ppu Unit :=
  { registers := PpuRegisters.new, vram := fun _ => 0, oam := fun _ => 0,
    palette := fun _ => 0, mapper := () }

/-! Bit-level helper lemmas. -/

/-- Masking with 0xFF00 keeps exactly the second byte. -/
theorem and_ff00 (a : Nat) : a &&& 65280 = a / 256 % 256 * 256 := by
  apply Nat.eq_of_testBit_eq
  intro i
  have h65280 : (65280 : Nat) = 2 ^ 8 * (2 ^ 8 - 1) := by norm_num
  have hrhs : a / 256 % 256 * 256 = 2 ^ 8 * (a / 2 ^ 8 % 2 ^ 8) := by
    norm_num [Nat.mul_comm]
  rw [Nat.testBit_and, h65280, hrhs]
  rw [Nat.testBit_mul_pow_two, Nat.testBit_mul_pow_two, Nat.testBit_two_pow_sub_one,
    Nat.testBit_mod_two_pow]
  have hdiv : (a / 2 ^ 8).testBit (i - 8) = (a >>> 8).testBit (i - 8) := by
    rw [Nat.shiftRight_eq_div_pow]
  rw [hdiv, Nat.testBit_shiftRight]
  by_cases h8 : 8 ≤ i
  · have heq : 8 + (i - 8) = i := by omega
    rw [heq]; simp [Bool.and_comm, Bool.and_assoc, Bool.and_left_comm]
  · simp [h8]

/-- Masking with 0xFF is reduction modulo 256. -/
theorem and_ff (a : Nat) : a &&& 255 = a % 256 := by
  have h := Nat.and_pow_two_sub_one_eq_mod a 8
  norm_num at h
  exact h

/-- Masking with 7 is reduction modulo 8. -/
theorem and_seven (a : Nat) : a &&& 7 = a % 8 := by
  have h := Nat.and_pow_two_sub_one_eq_mod a 3
  norm_num at h
  exact h

/-- Masking with 31 is reduction modulo 32. -/
theorem and_31 (a : Nat) : a &&& 31 = a % 32 := by
  have h := Nat.and_pow_two_sub_one_eq_mod a 5
  norm_num at h
  exact h

/-- Bitwise or of a multiple of 256 with a byte is their sum. -/
theorem lor_mul256_eq_add (h y : Nat) (hy : y < 256) : 256 * h ||| y = 256 * h + y := by
  apply Nat.eq_of_testBit_eq
  intro i
  have h256 : (256 : Nat) * h = 2 ^ 8 * h := by norm_num
  have hy8 : y < 2 ^ 8 := by norm_num; omega
  rw [Nat.testBit_or, h256, Nat.testBit_mul_pow_two,
    Nat.testBit_mul_pow_two_add h hy8 i]
  by_cases h8 : i < 8
  · have : ¬ (i ≥ 8) := by omega
    simp [h8, this]
  · have hyi : y < 2 ^ i := lt_of_lt_of_le hy8 (Nat.pow_le_pow_right (by norm_num) (by omega))
    have : i ≥ 8 := by omega
    simp [h8, this, Nat.testBit_lt_two_pow hyi]

/-- The page-preserving increment of the Indirect mode equals the spec's
bitwise formula (a & 0xFF00) | ((a+1) & 0x00FF). -/
theorem indirect_high_addr (a : Nat) :
    mkAddr ((a % 256 + 1) % 256) (a / 256 % 256) = (a &&& 65280) ||| ((a + 1) &&& 255) := by
  rw [and_ff00, and_ff, Nat.mul_comm (a / 256 % 256) 256,
    lor_mul256_eq_add _ _ (Nat.mod_lt _ (by norm_num))]
  unfold mkAddr
  have hm : (a + 1) % 256 = (a % 256 + 1) % 256 := by
    conv_lhs => rw [Nat.add_mod]
  rw [hm]

/-! Claim C3. -/

/-- Claim C3 counterexample: the claim asserts that a freshly constructed
CPU has P = INTERRUPT_DISABLE | UNUSED, but Registers::new leaves P at the
Flags default ALWAYS_ON = BREAK | UNUSED, which is a different byte. -/
theorem C3_counterexample :
    Registers.new.p = Flags.BREAK ||| Flags.UNUSED ∧
    Registers.new.p ≠ Flags.INTERRUPT_DISABLE ||| Flags.UNUSED := by
  constructor
  · rfl
  · decide

/-- Claim C3 (amended): a freshly constructed CPU has S = 0xFD,
P = BREAK | UNUSED (the Flags default ALWAYS_ON — not
INTERRUPT_DISABLE | UNUSED), and A = X = Y = 0, PC = 0. -/
theorem C3_initial_registers :
    Registers.new =
      { a := 0, x := 0, y := 0, s := 0xFD, pc := 0,
        p := Flags.BREAK ||| Flags.UNUSED } := by
  rfl

/-! Claim C10. -/

/-- Claim C10: on the baseline mapper's PPU side, every ppu_load with a
nametable-region address at or beyond $2800 (and below the palette branch at
$3F00) indexes the 2-KiB VRAM out of bounds and panics, and every ppu_store
at or beyond $2800 does the same; in particular palette-range stores
($3F00 and up) are captured by the nametable branch, which is tested first,
so they go out of bounds instead of updating the palette. -/
theorem C10_vram_out_of_bounds :
    ∀ (m : PpuMapper0) (vram palette : Nat → Nat) (addr value : Nat),
      (0x2800 ≤ addr → addr < 0x3F00 →
        PpuMapper0.ppu_load m vram palette addr = .error .indexOutOfBounds)
      ∧ (0x2800 ≤ addr →
        PpuMapper0.ppu_store m vram palette addr value = .error .indexOutOfBounds)
      ∧ (0x3F00 ≤ addr →
        PpuMapper0.ppu_store m vram palette addr value = .error .indexOutOfBounds) := by
  intro m vram palette addr value
  refine ⟨fun h1 h2 => ?_, fun h1 => ?_, fun h1 => ?_⟩
  · unfold PpuMapper0.ppu_load NAMETABLE0 VRAM_SIZE
    split_ifs <;> first | rfl | omega
  · unfold PpuMapper0.ppu_store NAMETABLE0 VRAM_SIZE
    split_ifs <;> first | rfl | omega
  · unfold PpuMapper0.ppu_store NAMETABLE0 VRAM_SIZE
    split_ifs <;> first | rfl | omega

/-- Claim C10 witness: concrete evaluations at $2800 (first mirrored
nametable byte) and $3F00 (first palette byte). -/
theorem C10_witness :
    PpuMapper0.ppu_load ⟨[]⟩ (fun _ => 0) (fun _ => 0) 0x2800 = .error .indexOutOfBounds
    ∧ PpuMapper0.ppu_store ⟨[]⟩ (fun _ => 0) (fun _ => 0) 0x2800 7 = .error .indexOutOfBounds
    ∧ PpuMapper0.ppu_store ⟨[]⟩ (fun _ => 0) (fun _ => 0) 0x3F00 7 = .error .indexOutOfBounds :=
  ⟨(C10_vram_out_of_bounds ⟨[]⟩ (fun _ => 0) (fun _ => 0) 0x2800 7).1 (by norm_num) (by norm_num),
   (C10_vram_out_of_bounds ⟨[]⟩ (fun _ => 0) (fun _ => 0) 0x2800 7).2.1 (by norm_num),
   (C10_vram_out_of_bounds ⟨[]⟩ (fun _ => 0) (fun _ => 0) 0x3F00 7).2.2 (by norm_num)⟩

/-! Claim C9. -/

/-- A composed-memory state in its power-on configuration over the trivial
PPU mapper, with a 16-KiB NROM PRG image of zeroes. -/
def memSt0 : MemSt Unit :=
  { ram := fun _ => 0, ppu := ppuNew, mapper := ⟨List.replicate 16384 0⟩ }

/-- Claim C9 counterexample: the claim covers every address in $4020-$FFFF,
but at $4020 the mapper's index computation `addr - 0x8000` underflows the
usize subtraction and the load panics instead of returning a PRG byte. -/
theorem C9_counterexample :
    Memory.load TrivPpuBus memSt0 0x4020 = .error .subUnderflow
    ∧ (∀ res, Memory.load TrivPpuBus memSt0 0x4020 ≠ .ok res)
    ∧ memSt0.mapper.prg.length = 16384 := by
  refine ⟨rfl, ?_, ?_⟩
  · intro res h
    rw [(rfl : Memory.load TrivPpuBus memSt0 0x4020 = .error .subUnderflow)] at h
    cases h
  · exact List.length_replicate 16384 0

/-- Claim C9 (amended): for every address in $8000-$FFFF a load through the
composed memory routed to the NROM mapper returns
prg[(addr - 0x8000) mod len(prg)] with the state unchanged, where len(prg)
is 16384 or 32768; and for every address in $4020-$FFFF a store routed to
the mapper leaves all state unchanged.  (Loads at $4020-$7FFF panic on an
index underflow, which the counterexample records.) -/
theorem C9_mapper_routing :
    ∀ (μ : Type) (P : PpuBusModel μ) (st : MemSt μ) (addr v : Nat),
      st.mapper.prg.length = 16384 ∨ st.mapper.prg.length = 32768 →
      (0x8000 ≤ addr → addr < 65536 →
        Memory.load P st addr =
          .ok (st.mapper.prg.getD ((addr - 0x8000) % st.mapper.prg.length) 0, st))
      ∧ (0x4020 ≤ addr → addr < 65536 → Memory.store P st addr v = .ok st) := by
  intro μ P st addr v _hlen
  constructor
  · intro h1 h2
    unfold Memory.load CpuMapper0.load
    split_ifs <;> first | rfl | omega
  · intro h1 h2
    unfold Memory.store
    split_ifs <;> first | rfl | omega

/-- Claim C9 witness: the amended load and store equations evaluated at
$8000 and $4020 on the concrete power-on state. -/
theorem C9_witness :
    Memory.load TrivPpuBus memSt0 0x8000 =
      .ok (memSt0.mapper.prg.getD ((0x8000 - 0x8000) % memSt0.mapper.prg.length) 0, memSt0)
    ∧ Memory.store TrivPpuBus memSt0 0x4020 7 = .ok memSt0 :=
  ⟨(C9_mapper_routing Unit TrivPpuBus memSt0 0x8000 7
      (Or.inl (List.length_replicate 16384 0))).1 (by norm_num) (by norm_num),
   (C9_mapper_routing Unit TrivPpuBus memSt0 0x4020 7
      (Or.inl (List.length_replicate 16384 0))).2 (by norm_num) (by norm_num)⟩

/-! Claim C5. -/

/-- Memory image for the JMP-indirect page-wrap scenario: $30FF=$40,
$3000=$80, $3100=$50, and the instruction JMP ($30FF) at $0200. -/
def jmpBugMem : Nat → Nat := fun a =>
  if a = 0x30FF then 0x40
  else if a = 0x3000 then 0x80
  else if a = 0x3100 then 0x50
  else if a = 0x0200 then 0x6C
  else if a = 0x0201 then 0xFF
  else if a = 0x0202 then 0x30
  else 0

/-- A CPU about to execute the instruction at $0200. -/
def jmpBugCpu : Cpu :=
  { Cpu.new with registers := { Registers.new with pc := 0x0200 } }

/-- Claim C5: for every 16-bit pointer a and every bus state, the Indirect
effective address is the little-endian pair whose low byte is loaded from a
and whose high byte is loaded from (a & 0xFF00) | ((a+1) & 0x00FF) — the
low pointer byte wraps within its page instead of carrying; consequently
JMP ($30FF) with $30FF=$40, $3000=$80, $3100=$50 sets PC to $8040, not
$5040. -/
theorem C5_indirect_page_wrap :
    (∀ (σ : Type) (B : BusModel σ) (s : σ) (r : Registers) (a : Nat),
      Mode.address (Mode.indirect a) B s r =
        (let low := B.load s a
         let high := B.load low.2 ((a &&& 0xFF00) ||| ((a + 1) &&& 0x00FF))
         Except.ok (mkAddr low.1 high.1, high.2)))
    ∧ Except.map (fun t => t.1.registers.pc) (Cpu.step ArrayBus jmpBugCpu jmpBugMem) =
        .ok 0x8040 := by
  constructor
  · intro σ B s r a
    show (let low := B.load s a
          let high := B.load low.2 (mkAddr ((a % 256 + 1) % 256) (a / 256 % 256))
          Except.ok (mkAddr low.1 high.1, high.2) : Except Err (Nat × σ)) = _
    rw [indirect_high_addr]
  · rfl

/-! Claim C2. -/

/-- A PPU whose stored status byte has a nonzero low bit (bit 0 set) and a
zero data-bus latch — the failing input for the STATUS read formula. -/
def statusBugPpu : Ppu Unit :=
  { ppuNew with registers := { PpuRegisters.new with status := 1 } }

/-- Claim C2 (code bug): the claim (and the comment in the source) say a
STATUS read returns (status & 0xE0) | (last_bus & 0x1F), which is 0 for
status = 1, latch = 0; the code instead computes
status | (0xE0 & last_bus) and returns 1 — the masks sit on the wrong
operands.  The rest of the claim behaves as stated: the read clears both
two-step latches and clears bit 7 of the stored status, and a write to
$2002 leaves the stored status unchanged. -/
theorem C2_status_read_bug :
    (Ppu.load TrivPpuBus statusBugPpu 0x2002).1 = 1
    ∧ (statusBugPpu.registers.status &&& 0xE0) |||
        (statusBugPpu.registers.most_recent_value &&& 0x1F) = 0
    ∧ (Ppu.load TrivPpuBus statusBugPpu 0x2002).2.registers.addr = (none, none)
    ∧ (Ppu.load TrivPpuBus statusBugPpu 0x2002).2.registers.scroll = (none, none)
    ∧ (Ppu.load TrivPpuBus statusBugPpu 0x2002).2.registers.status = 1
    ∧ (Ppu.store TrivPpuBus statusBugPpu 0x2002 0xFF).registers.status = 1 :=
  ⟨rfl, rfl, rfl, rfl, rfl, rfl⟩

/-! Claim C7. -/

/-- Claim C7: writes to $2006 (any address with low three bits 6) drive the
two-step addr latch exactly as $2005 drives scroll — first write fills the
first slot, second write fills the second, a third write is ignored, and a
STATUS read empties both latches; $2007 DATA reads and writes go to the
PPU-bus address latched in $2006, first byte high and second byte low. -/
theorem C7_addr_latch_and_data :
    ∀ (μ : Type) (P : PpuBusModel μ) (p : Ppu μ) (k v : Nat),
      ((Ppu.store P p (8 * k + 6) v).registers.addr = doubleWrite p.registers.addr v)
      ∧ ((Ppu.store P p (8 * k + 6) v).registers.scroll = p.registers.scroll)
      ∧ ((Ppu.store P p (8 * k + 5) v).registers.scroll = doubleWrite p.registers.scroll v)
      ∧ (doubleWrite (none, none) v = (some v, none))
      ∧ (∀ f : Nat, doubleWrite (some f, none) v = (some f, some v))
      ∧ (∀ f g : Nat, doubleWrite (some f, some g) v = (some f, some g))
      ∧ ((Ppu.load P p (8 * k + 2)).2.registers.addr = (none, none))
      ∧ ((Ppu.load P p (8 * k + 2)).2.registers.scroll = (none, none))
      ∧ (readPpuaddr p.registers.addr =
          256 * (p.registers.addr.1.getD 0) + (p.registers.addr.2.getD 0))
      ∧ (Ppu.store P p (8 * k + 7) v =
          (let p0 := { p with registers := { p.registers with most_recent_value := v } }
           if readPpuaddr p.registers.addr < PALETTE_BASE_ADDR then
             let r := P.ppu_store p.mapper p.vram p.palette (readPpuaddr p.registers.addr) v
             { p0 with mapper := r.1, vram := r.2.1, palette := r.2.2 }
           else
             { p0 with palette :=
                 Function.update p0.palette (readPpuaddr p.registers.addr &&& 31) v }))
      ∧ ((Ppu.load P p (8 * k + 7)).1 =
          (if readPpuaddr p.registers.addr < PALETTE_BASE_ADDR then
             (P.ppu_load p.mapper p.vram p.palette (readPpuaddr p.registers.addr)).1
           else p.palette (readPpuaddr p.registers.addr &&& 31))) := by
  intro μ P p k v
  have h2 : (8 * k + 2) &&& 7 = 2 := by rw [and_seven]; omega
  have h5 : (8 * k + 5) &&& 7 = 5 := by rw [and_seven]; omega
  have h6 : (8 * k + 6) &&& 7 = 6 := by rw [and_seven]; omega
  have h7 : (8 * k + 7) &&& 7 = 7 := by rw [and_seven]; omega
  refine ⟨?_, ?_, ?_, rfl, fun f => rfl, fun f g => rfl, ?_, ?_, rfl, ?_, ?_⟩
  · unfold Ppu.store; rw [h6]
  · unfold Ppu.store; rw [h6]
  · unfold Ppu.store; rw [h5]
  · unfold Ppu.load; rw [h2]
  · unfold Ppu.load; rw [h2]
  · by_cases hlt : readPpuaddr p.registers.addr < PALETTE_BASE_ADDR
    · simp [Ppu.store, h7, hlt]
    · simp [Ppu.store, h7, hlt]
  · by_cases hlt : readPpuaddr p.registers.addr < PALETTE_BASE_ADDR
    · simp [Ppu.load, h7, hlt]
    · simp [Ppu.load, h7, hlt]

/-! Claim C6. -/

/-- store(AM, v) followed by load(AM), returning the loaded byte. -/
def storeThenLoad (am : Mode) (B : BusModel σ) (s : σ) (r : Registers) (v : Nat) :
    Except Err Nat :=
  match am.store B s r v with
  | .error e => .error e
  | .ok (r1, s1) =>
    match am.load B s1 r1 with
    | .error e => .error e
    | .ok (value, _) => .ok value

/-- Claim C6 counterexample: IndirectIndexed(0) with Y = 0 over a zeroed
64-KiB array.  The zero-page pointer at $00/$01 reads 0, so the store's
target is address 0 — which is the pointer's own low byte.  Storing 5 there
rewrites the pointer, so the subsequent load recomputes address 5 and reads
0, not 5: the claimed round-trip fails. -/
theorem C6_counterexample :
    storeThenLoad (Mode.indirectIndexed 0) ArrayBus (fun _ => 0) Registers.new 5 = .ok 0
    ∧ storeThenLoad (Mode.indirectIndexed 0) ArrayBus (fun _ => 0) Registers.new 5 ≠ .ok 5 := by
  constructor
  · rfl
  · intro h
    rw [(rfl : storeThenLoad (Mode.indirectIndexed 0) ArrayBus (fun _ => 0)
          Registers.new 5 = .ok 0)] at h
    cases h

/-- Claim C6 (amended): on the array-backed bus, for every addressing mode
that supports store (every variant except Implicit and Immediate), storing a
byte and loading it back returns that byte, provided the store has not
changed the mode's effective address (as can happen for the three indirect
modes when the target aliases a pointer byte read during address
computation; for all other modes the proviso holds trivially because their
address computation never reads memory). -/
theorem C6_store_load_round_trip :
    ∀ (am : Mode) (mem : Nat → Nat) (r : Registers) (v : Nat)
      (r1 : Registers) (mem1 : Nat → Nat),
      am ≠ Mode.implicit →
      (∀ w, am ≠ Mode.immediate w) →
      v < 256 →
      Mode.store am ArrayBus mem r v = .ok (r1, mem1) →
      Except.map Prod.fst (Mode.address am ArrayBus mem1 r1) =
        Except.map Prod.fst (Mode.address am ArrayBus mem r) →
      Mode.load am ArrayBus mem1 r1 = .ok (v, mem1) := by
  intro am mem r v r1 mem1 himp himm hv hstore haddr
  cases am with
  | implicit => exact absurd rfl himp
  | immediate w => exact absurd rfl (himm w)
  | accumulator =>
    cases hstore
    rfl
  | zeroPage d =>
    cases hstore
    simp only [Mode.load, Mode.address, ArrayBus]
    simp [Nat.mod_eq_of_lt hv]
  | zeroPageX d =>
    cases hstore
    simp only [Mode.load, Mode.address, ArrayBus]
    simp [Nat.mod_eq_of_lt hv]
  | zeroPageY d =>
    cases hstore
    simp only [Mode.load, Mode.address, ArrayBus]
    simp [Nat.mod_eq_of_lt hv]
  | relative off =>
    cases hstore
    simp only [Mode.load, Mode.address, ArrayBus]
    simp [Nat.mod_eq_of_lt hv]
  | absolute a =>
    cases hstore
    simp only [Mode.load, Mode.address, ArrayBus]
    simp [Nat.mod_eq_of_lt hv]
  | absoluteX a =>
    cases hstore
    simp only [Mode.load, Mode.address, ArrayBus]
    simp [Nat.mod_eq_of_lt hv]
  | absoluteY a =>
    cases hstore
    simp only [Mode.load, Mode.address, ArrayBus]
    simp [Nat.mod_eq_of_lt hv]
  | indirect a =>
    cases hstore
    simp only [Mode.load, Mode.address, ArrayBus, Except.map] at haddr ⊢
    have h := Except.ok.inj haddr
    rw [h]
    simp [Nat.mod_eq_of_lt hv]
  | indexedIndirect d =>
    cases hstore
    simp only [Mode.load, Mode.address, ArrayBus, Except.map] at haddr ⊢
    have h := Except.ok.inj haddr
    rw [h]
    simp [Nat.mod_eq_of_lt hv]
  | indirectIndexed d =>
    cases hstore
    simp only [Mode.load, Mode.address, ArrayBus, Except.map] at haddr ⊢
    have h := Except.ok.inj haddr
    rw [h]
    simp [Nat.mod_eq_of_lt hv]

/-- Claim C6 witness: ZeroPage(3) round-trips the byte 7 on the zeroed
array bus. -/
theorem C6_witness :
    Mode.load (Mode.zeroPage 3) ArrayBus (Function.update (fun _ => 0) 3 (7 % 256))
      Registers.new = .ok (7, Function.update (fun _ => 0) 3 (7 % 256)) :=
  C6_store_load_round_trip (Mode.zeroPage 3) (fun _ => 0) Registers.new 7
    Registers.new (Function.update (fun _ => 0) 3 (7 % 256))
    (fun h => Mode.noConfusion h) (fun _ h => Mode.noConfusion h)
    (by norm_num) rfl rfl

/-! Claim C1. -/

set_option maxRecDepth 4096 in
/-- Flag extraction through the OVERFLOW/CARRY/ZERO/NEGATIVE update chain
used by ADC and SBC, checked over every status byte and flag combination. -/
theorem adcFlagShape : ∀ p, p < 256 → ∀ ov co z n : Bool,
    (Flags.contains (Flags.set (Flags.set (Flags.set (Flags.set p Flags.OVERFLOW ov)
        Flags.CARRY co) Flags.ZERO z) Flags.NEGATIVE n) Flags.CARRY = co)
    ∧ (Flags.contains (Flags.set (Flags.set (Flags.set (Flags.set p Flags.OVERFLOW ov)
        Flags.CARRY co) Flags.ZERO z) Flags.NEGATIVE n) Flags.OVERFLOW = ov)
    ∧ (Flags.contains (Flags.set (Flags.set (Flags.set (Flags.set p Flags.OVERFLOW ov)
        Flags.CARRY co) Flags.ZERO z) Flags.NEGATIVE n) Flags.ZERO = z)
    ∧ (Flags.contains (Flags.set (Flags.set (Flags.set (Flags.set p Flags.OVERFLOW ov)
        Flags.CARRY co) Flags.ZERO z) Flags.NEGATIVE n) Flags.NEGATIVE = n) := by
  decide

/-- The result CPU of ADC with an immediate operand — the ok branch of
Cpu::adc written as a total function. -/
def adcRun (c : Cpu) (m : Nat) : Cpu :=
  let carryIn : Nat := if Flags.contains c.registers.p Flags.CARRY then 1 else 0
  let res16 := c.registers.a + m + carryIn
  let carryOut := decide (255 < res16)
  let res := res16 % 256
  let overflow := twosComplementOverflow c.registers.a m res
  let p1 := Flags.set c.registers.p Flags.OVERFLOW overflow
  let p2 := Flags.set p1 Flags.CARRY carryOut
  Cpu.checkZN { c with registers := { c.registers with a := res, p := p2 } } res

/-- Claim C1: for every accumulator byte A, operand byte M and status byte P
(hence for every incoming carry bit C and either DECIMAL setting), ADC with
an immediate operand succeeds on any bus without touching the bus state, and
afterwards 256*CARRY + A' = A + M + C,
OVERFLOW = (((A xor A') and (M xor A') and 0x80) != 0), ZERO = (A' = 0) and
NEGATIVE = (A' >= 128). -/
theorem C1_adc_correct :
    ∀ (σ : Type) (B : BusModel σ) (c : Cpu) (s : σ) (m : Nat),
      c.registers.a < 256 → c.registers.p < 256 → m < 256 →
      Cpu.adc (Mode.immediate m) B c s = .ok (adcRun c m, s)
      ∧ (256 * (if Flags.contains (adcRun c m).registers.p Flags.CARRY then 1 else 0)
           + (adcRun c m).registers.a
          = c.registers.a + m
           + (if Flags.contains c.registers.p Flags.CARRY then 1 else 0))
      ∧ (Flags.contains (adcRun c m).registers.p Flags.OVERFLOW =
          decide ((c.registers.a ^^^ (adcRun c m).registers.a) &&&
            (m ^^^ (adcRun c m).registers.a) &&& 128 ≠ 0))
      ∧ (Flags.contains (adcRun c m).registers.p Flags.ZERO =
          decide ((adcRun c m).registers.a = 0))
      ∧ (Flags.contains (adcRun c m).registers.p Flags.NEGATIVE =
          decide (128 ≤ (adcRun c m).registers.a)) := by
  intro σ B c s m ha hp hm
  have hci : (if Flags.contains c.registers.p Flags.CARRY then 1 else 0) ≤ 1 := by
    split <;> norm_num
  have hares : (adcRun c m).registers.a =
      (c.registers.a + m + (if Flags.contains c.registers.p Flags.CARRY then 1 else 0)) % 256 := rfl
  have hp2 : (adcRun c m).registers.p = Flags.set (Flags.set (Flags.set (Flags.set
      c.registers.p Flags.OVERFLOW (twosComplementOverflow c.registers.a m
        ((c.registers.a + m + (if Flags.contains c.registers.p Flags.CARRY then 1 else 0)) % 256)))
      Flags.CARRY (decide (255 < c.registers.a + m +
        (if Flags.contains c.registers.p Flags.CARRY then 1 else 0))))
      Flags.ZERO (((c.registers.a + m +
        (if Flags.contains c.registers.p Flags.CARRY then 1 else 0)) % 256) == 0))
      Flags.NEGATIVE (decide (127 < (c.registers.a + m +
        (if Flags.contains c.registers.p Flags.CARRY then 1 else 0)) % 256)) := rfl
  have hshape := adcFlagShape c.registers.p hp
    (twosComplementOverflow c.registers.a m
      ((c.registers.a + m + (if Flags.contains c.registers.p Flags.CARRY then 1 else 0)) % 256))
    (decide (255 < c.registers.a + m + (if Flags.contains c.registers.p Flags.CARRY then 1 else 0)))
    (((c.registers.a + m + (if Flags.contains c.registers.p Flags.CARRY then 1 else 0)) % 256) == 0)
    (decide (127 < (c.registers.a + m + (if Flags.contains c.registers.p Flags.CARRY then 1 else 0)) % 256))
  have key : ∀ t : Nat, t < 512 →
      256 * (if decide (255 < t) then 1 else 0) + t % 256 = t := by
    intro t ht
    by_cases h : 255 < t
    · simp only [h, decide_True, if_true]
      omega
    · simp only [h, decide_False, Bool.false_eq_true, if_false]
      omega
  refine ⟨rfl, ?_, ?_, ?_, ?_⟩
  · rw [hares, hp2, hshape.1]
    exact key _ (by omega)
  · rw [hares, hp2, hshape.2.1]
    unfold twosComplementOverflow
    exact decide_eq_decide.mpr Nat.pos_iff_ne_zero
  · rw [hares, hp2, hshape.2.2.1]
    rfl
  · rw [hares, hp2, hshape.2.2.2]
    exact decide_eq_decide.mpr (by omega)

/-- Claim C1 witness: the spec's overflow scenario A = $50, M = $50, C = 0
(ADC #$50 gives A' = $A0 with CARRY = 0, OVERFLOW = 1, NEGATIVE = 1,
ZERO = 0). -/
theorem C1_witness :
    Cpu.adc (Mode.immediate 0x50) UnitBus
        { Cpu.new with registers := { Registers.new with a := 0x50 } } ()
      = .ok (adcRun { Cpu.new with registers := { Registers.new with a := 0x50 } } 0x50, ())
    ∧ (256 * (if Flags.contains (adcRun { Cpu.new with
          registers := { Registers.new with a := 0x50 } } 0x50).registers.p Flags.CARRY
            then 1 else 0)
        + (adcRun { Cpu.new with registers := { Registers.new with a := 0x50 } } 0x50).registers.a
       = 0x50 + 0x50 + 0)
    ∧ Flags.contains (adcRun { Cpu.new with
        registers := { Registers.new with a := 0x50 } } 0x50).registers.p Flags.OVERFLOW = true
    ∧ (adcRun { Cpu.new with
        registers := { Registers.new with a := 0x50 } } 0x50).registers.a = 0xA0 := by
  have h := C1_adc_correct Unit UnitBus
    { Cpu.new with registers := { Registers.new with a := 0x50 } } () 0x50
    (by decide) (by decide) (by decide)
  exact ⟨h.1, by rw [h.2.1]; decide, by decide, by decide⟩

/-! Claim C8. -/

/-- Memory image holding JMP $0200 at $0200 — a taken jump whose target is
the instruction's own start address. -/
def loopMem : Nat → Nat := fun a =>
  if a = 0x0200 then 0x4C
  else if a = 0x0201 then 0x00
  else if a = 0x0202 then 0x02
  else 0

/-- A CPU about to execute the instruction at $0200. -/
def loopCpu : Cpu :=
  { Cpu.new with registers := { Registers.new with pc := 0x0200 } }

/-- Claim C8 counterexample: the claim says a taken jump whose target is the
instruction's own start address does not raise the fatal infinite-loop
error, but executing JMP $0200 at $0200 — a decoded jump that assigns PC —
still panics, because step only compares the numeric PC before and after. -/
theorem C8_counterexample :
    Instr.fetch ArrayBus loopMem 0x0200 =
      .ok ((Op.jmp, Mode.absolute 0x0200), 0x4C, 0x0203, loopMem)
    ∧ Cpu.step ArrayBus loopCpu loopMem = .error .infiniteLoop :=
  ⟨rfl, rfl⟩

/-- Claim C8 (amended): Cpu::step raises the fatal infinite-loop error
exactly when the fetch-decode-execute pipeline completes and the program
counter afterwards equals its value at the start of the step — regardless
of whether a branch, jump or interrupt wrote that value; pipeline panics
propagate unchanged, and a completed step with a changed PC returns the
opcode's cycle cost. -/
theorem C8_infinite_loop_check :
    ∀ (σ : Type) (B : BusModel σ) (c : Cpu) (s : σ),
      (∀ c2 s2 op, Cpu.stepInner B c s = .ok (c2, s2, op) →
        (Cpu.step B c s = .error .infiniteLoop ↔ c2.registers.pc = c.registers.pc))
      ∧ (∀ e, Cpu.stepInner B c s = .error e → Cpu.step B c s = .error e)
      ∧ (∀ c2 s2 op, Cpu.stepInner B c s = .ok (c2, s2, op) →
          c2.registers.pc ≠ c.registers.pc →
          Cpu.step B c s = .ok (c2, s2, cycleTable op)) := by
  intro σ B c s
  refine ⟨?_, ?_, ?_⟩
  · intro c2 s2 op h
    have hstep : Cpu.step B c s =
        if c.registers.pc = c2.registers.pc then .error .infiniteLoop
        else .ok (c2, s2, cycleTable op) := by
      unfold Cpu.step
      rw [h]
    rw [hstep]
    by_cases hpc : c.registers.pc = c2.registers.pc
    · rw [if_pos hpc]
      simp [hpc]
    · rw [if_neg hpc]
      constructor
      · intro h2
        cases h2
      · intro h2
        exact absurd h2.symm hpc
  · intro e h
    unfold Cpu.step
    rw [h]
  · intro c2 s2 op h hne
    have hstep : Cpu.step B c s =
        if c.registers.pc = c2.registers.pc then .error .infiniteLoop
        else .ok (c2, s2, cycleTable op) := by
      unfold Cpu.step
      rw [h]
    rw [hstep, if_neg (fun hh => hne hh.symm)]

/-- Claim C8 witness: the JMP-to-self step evaluated through the amended
characterisation — the pipeline completes with PC back at $0200, so step
raises the infinite-loop error. -/
theorem C8_witness :
    Cpu.step ArrayBus loopCpu loopMem = .error .infiniteLoop :=
  ((C8_infinite_loop_check (Nat → Nat) ArrayBus loopCpu loopMem).1
    { registers := { a := 0, x := 0, y := 0, s := 0xFD, pc := 0x0200, p := Flags.ALWAYS_ON },
      irq_pending := false, cycles_remaining := 0, cycle := 0 } loopMem 0x4C rfl).mpr rfl

/-! Claim C4: infrastructure.  `pOk p q` says the status byte q obtained
from p by one CPU action stays a byte, keeps UNUSED set, and never sets
BREAK. -/

/-- Status-byte evolution invariant: the result stays below 256, keeps the
UNUSED bit when it was set, and keeps the BREAK bit clear when it was
clear. -/
def pOk (p q : Nat) : Prop :=
  q < 256 ∧ (p &&& 32 = 32 → q &&& 32 = 32) ∧ (p &&& 16 = 0 → q &&& 16 = 0)

instance (p q : Nat) : Decidable (pOk p q) := by unfold pOk; infer_instance

/-- pOk is reflexive on bytes. -/
theorem pOk_refl (p : Nat) (hp : p < 256) : pOk p p := ⟨hp, id, id⟩

/-- pOk composes. -/
theorem pOk_trans (h1 : pOk p q) (h2 : pOk q r) : pOk p r :=
  ⟨h2.1, fun h => h2.2.1 (h1.2.1 h), fun h => h2.2.2 (h1.2.2 h)⟩

set_option maxRecDepth 4096 in
/-- check_zero_or_negative preserves the invariant. -/
theorem pOk_zn : ∀ p, p < 256 → ∀ b1 b2 : Bool,
    pOk p (Flags.set (Flags.set p Flags.ZERO b1) Flags.NEGATIVE b2) := by decide

set_option maxRecDepth 4096 in
/-- A CARRY update followed by check_zero_or_negative preserves the
invariant (shift/rotate/compare handlers). -/
theorem pOk_czn : ∀ p, p < 256 → ∀ b0 b1 b2 : Bool,
    pOk p (Flags.set (Flags.set (Flags.set p Flags.CARRY b0) Flags.ZERO b1)
      Flags.NEGATIVE b2) := by decide

set_option maxRecDepth 8192 in
/-- The OVERFLOW/CARRY/ZERO/NEGATIVE chain of ADC and SBC preserves the
invariant. -/
theorem pOk_ov4 : ∀ p, p < 256 → ∀ b0 b1 b2 b3 : Bool,
    pOk p (Flags.set (Flags.set (Flags.set (Flags.set p Flags.OVERFLOW b0)
      Flags.CARRY b1) Flags.ZERO b2) Flags.NEGATIVE b3) := by decide

set_option maxRecDepth 4096 in
/-- The ZERO/OVERFLOW/NEGATIVE chain of BIT preserves the invariant. -/
theorem pOk_bitshape : ∀ p, p < 256 → ∀ b0 b1 b2 : Bool,
    pOk p (Flags.set (Flags.set (Flags.set p Flags.ZERO b0) Flags.OVERFLOW b1)
      Flags.NEGATIVE b2) := by decide

set_option maxRecDepth 4096 in
/-- Inserting CARRY, INTERRUPT_DISABLE or DECIMAL preserves the invariant. -/
theorem pOk_insert : ∀ p, p < 256 →
    pOk p (Flags.insert p Flags.CARRY)
    ∧ pOk p (Flags.insert p Flags.INTERRUPT_DISABLE)
    ∧ pOk p (Flags.insert p Flags.DECIMAL) := by decide

set_option maxRecDepth 4096 in
/-- Removing CARRY, INTERRUPT_DISABLE, DECIMAL or OVERFLOW preserves the
invariant. -/
theorem pOk_remove : ∀ p, p < 256 →
    pOk p (Flags.remove p Flags.CARRY)
    ∧ pOk p (Flags.remove p Flags.INTERRUPT_DISABLE)
    ∧ pOk p (Flags.remove p Flags.DECIMAL)
    ∧ pOk p (Flags.remove p Flags.OVERFLOW) := by decide

set_option maxRecDepth 4096 in
/-- The pull_flags mask produces a byte with UNUSED set and BREAK clear. -/
theorem pull_mask_ok : ∀ z, z < 256 →
    Flags.remove (Flags.insert z Flags.UNUSED) Flags.BREAK < 256
    ∧ (Flags.remove (Flags.insert z Flags.UNUSED) Flags.BREAK) &&& 32 = 32
    ∧ (Flags.remove (Flags.insert z Flags.UNUSED) Flags.BREAK) &&& 16 = 0 := by decide

/-- pull_flags establishes the invariant outright, whatever byte is pulled. -/
theorem pOk_pull (p bits : Nat) :
    pOk p (Flags.remove (Flags.insert (Flags.fromBitsTruncate bits) Flags.UNUSED)
      Flags.BREAK) := by
  have h := pull_mask_ok (bits % 256) (Nat.mod_lt _ (by norm_num))
  exact ⟨h.1, fun _ => h.2.1, fun _ => h.2.2⟩

set_option maxRecDepth 4096 in
/-- Flags.contains restated as mask equations on bytes. -/
theorem contains_mask : ∀ p, p < 256 →
    (Flags.contains p Flags.UNUSED = true ↔ p &&& 32 = 32)
    ∧ (Flags.contains p Flags.BREAK = false ↔ p &&& 16 = 0) := by decide

/-- Mode.store never changes the status byte of the register file. -/
theorem store_p (am : Mode) (B : BusModel σ) (s : σ) (r : Registers) (v : Nat)
    (r1 : Registers) (s1 : σ) (h : Mode.store am B s r v = .ok (r1, s1)) :
    r1.p = r.p := by
  unfold Mode.store at h
  split at h
  · cases h; rfl
  · split at h
    · cases h
    · cases h; rfl

/-- Injectivity of ok-wrapped pairs. -/
theorem ok_pair_inj {A B : Type} {a c : A} {b d : B}
    (h : (Except.ok (a, b) : Except Err (A × B)) = .ok (c, d)) : a = c ∧ b = d := by
  injection h with h1
  injection h1 with h2 h3
  exact ⟨h2, h3⟩

/-- Injectivity of ok-wrapped triples. -/
theorem ok_triple_inj {A B C : Type} {a d : A} {b e : B} {c f : C}
    (h : (Except.ok (a, b, c) : Except Err (A × B × C)) = .ok (d, e, f)) :
    a = d ∧ b = e ∧ c = f := by
  injection h with h1
  injection h1 with h2 h3
  injection h3 with h4 h5
  exact ⟨h2, h4, h5⟩

/-- ADC preserves the status invariant. -/
theorem adc_pOk {B : BusModel σ} (h : Cpu.adc am B c s = .ok (c2, s2))
    (hp : c.registers.p < 256) : pOk c.registers.p c2.registers.p := by
  unfold Cpu.adc at h
  split at h
  · cases h
  · rcases ok_pair_inj h with ⟨rfl, rfl⟩
    exact pOk_ov4 _ hp _ _ _ _

/-- SBC preserves the status invariant. -/
theorem sbc_pOk {B : BusModel σ} (h : Cpu.sbc am B c s = .ok (c2, s2))
    (hp : c.registers.p < 256) : pOk c.registers.p c2.registers.p := by
  unfold Cpu.sbc at h
  split at h
  · cases h
  · rcases ok_pair_inj h with ⟨rfl, rfl⟩
    exact pOk_ov4 _ hp _ _ _ _

/-- AND preserves the status invariant. -/
theorem and_pOk {B : BusModel σ} (h : Cpu.opAnd am B c s = .ok (c2, s2))
    (hp : c.registers.p < 256) : pOk c.registers.p c2.registers.p := by
  unfold Cpu.opAnd at h
  split at h
  · cases h
  · rcases ok_pair_inj h with ⟨rfl, rfl⟩
    exact pOk_zn _ hp _ _

/-- EOR preserves the status invariant. -/
theorem eor_pOk {B : BusModel σ} (h : Cpu.eor am B c s = .ok (c2, s2))
    (hp : c.registers.p < 256) : pOk c.registers.p c2.registers.p := by
  unfold Cpu.eor at h
  split at h
  · cases h
  · rcases ok_pair_inj h with ⟨rfl, rfl⟩
    exact pOk_zn _ hp _ _

/-- ORA preserves the status invariant. -/
theorem ora_pOk {B : BusModel σ} (h : Cpu.ora am B c s = .ok (c2, s2))
    (hp : c.registers.p < 256) : pOk c.registers.p c2.registers.p := by
  unfold Cpu.ora at h
  split at h
  · cases h
  · rcases ok_pair_inj h with ⟨rfl, rfl⟩
    exact pOk_zn _ hp _ _

/-- LDA preserves the status invariant. -/
theorem lda_pOk {B : BusModel σ} (h : Cpu.lda am B c s = .ok (c2, s2))
    (hp : c.registers.p < 256) : pOk c.registers.p c2.registers.p := by
  unfold Cpu.lda at h
  split at h
  · cases h
  · rcases ok_pair_inj h with ⟨rfl, rfl⟩
    exact pOk_zn _ hp _ _

/-- LDX preserves the status invariant. -/
theorem ldx_pOk {B : BusModel σ} (h : Cpu.ldx am B c s = .ok (c2, s2))
    (hp : c.registers.p < 256) : pOk c.registers.p c2.registers.p := by
  unfold Cpu.ldx at h
  split at h
  · cases h
  · rcases ok_pair_inj h with ⟨rfl, rfl⟩
    exact pOk_zn _ hp _ _

/-- LDY preserves the status invariant. -/
theorem ldy_pOk {B : BusModel σ} (h : Cpu.ldy am B c s = .ok (c2, s2))
    (hp : c.registers.p < 256) : pOk c.registers.p c2.registers.p := by
  unfold Cpu.ldy at h
  split at h
  · cases h
  · rcases ok_pair_inj h with ⟨rfl, rfl⟩
    exact pOk_zn _ hp _ _

/-- ASL preserves the status invariant. -/
theorem asl_pOk {B : BusModel σ} (h : Cpu.asl am B c s = .ok (c2, s2))
    (hp : c.registers.p < 256) : pOk c.registers.p c2.registers.p := by
  unfold Cpu.asl at h
  split at h
  · cases h
  · dsimp only [] at h
    split at h
    · cases h
    · rcases ok_pair_inj h with ⟨rfl, rfl⟩
      rename_i value s1 heq r1 s2x heq2
      show pOk c.registers.p (Flags.set (Flags.set (Flags.set r1.p Flags.CARRY _)
        Flags.ZERO _) Flags.NEGATIVE _)
      rw [store_p _ _ _ _ _ _ _ heq2]
      exact pOk_czn _ hp _ _ _

/-- LSR preserves the status invariant. -/
theorem lsr_pOk {B : BusModel σ} (h : Cpu.lsr am B c s = .ok (c2, s2))
    (hp : c.registers.p < 256) : pOk c.registers.p c2.registers.p := by
  unfold Cpu.lsr at h
  split at h
  · cases h
  · dsimp only [] at h
    split at h
    · cases h
    · rcases ok_pair_inj h with ⟨rfl, rfl⟩
      rename_i value s1 heq r1 s2x heq2
      show pOk c.registers.p (Flags.set (Flags.set (Flags.set r1.p Flags.CARRY _)
        Flags.ZERO _) Flags.NEGATIVE _)
      rw [store_p _ _ _ _ _ _ _ heq2]
      exact pOk_czn _ hp _ _ _

/-- ROL preserves the status invariant. -/
theorem rol_pOk {B : BusModel σ} (h : Cpu.rol am B c s = .ok (c2, s2))
    (hp : c.registers.p < 256) : pOk c.registers.p c2.registers.p := by
  unfold Cpu.rol at h
  split at h
  · cases h
  · dsimp only [] at h
    split at h
    · cases h
    · rcases ok_pair_inj h with ⟨rfl, rfl⟩
      rename_i value s1 heq r1 s2x heq2
      show pOk c.registers.p (Flags.set (Flags.set (Flags.set r1.p Flags.CARRY _)
        Flags.ZERO _) Flags.NEGATIVE _)
      rw [store_p _ _ _ _ _ _ _ heq2]
      exact pOk_czn _ hp _ _ _

/-- ROR preserves the status invariant. -/
theorem ror_pOk {B : BusModel σ} (h : Cpu.ror am B c s = .ok (c2, s2))
    (hp : c.registers.p < 256) : pOk c.registers.p c2.registers.p := by
  unfold Cpu.ror at h
  split at h
  · cases h
  · dsimp only [] at h
    split at h
    · cases h
    · rcases ok_pair_inj h with ⟨rfl, rfl⟩
      rename_i value s1 heq r1 s2x heq2
      show pOk c.registers.p (Flags.set (Flags.set (Flags.set r1.p Flags.CARRY _)
        Flags.ZERO _) Flags.NEGATIVE _)
      rw [store_p _ _ _ _ _ _ _ heq2]
      exact pOk_czn _ hp _ _ _

/-- CMP/CPX/CPY preserve the status invariant. -/
theorem compare_pOk {B : BusModel σ} (h : Cpu.compare reg am B c s = .ok (c2, s2))
    (hp : c.registers.p < 256) : pOk c.registers.p c2.registers.p := by
  unfold Cpu.compare at h
  split at h
  · cases h
  · rcases ok_pair_inj h with ⟨rfl, rfl⟩
    exact pOk_czn _ hp _ _ _

/-- BIT preserves the status invariant. -/
theorem bit_pOk {B : BusModel σ} (h : Cpu.bit am B c s = .ok (c2, s2))
    (hp : c.registers.p < 256) : pOk c.registers.p c2.registers.p := by
  unfold Cpu.bit at h
  split at h
  · cases h
  · rcases ok_pair_inj h with ⟨rfl, rfl⟩
    exact pOk_bitshape _ hp _ _ _

/-- DEC preserves the status invariant. -/
theorem dec_pOk {B : BusModel σ} (h : Cpu.dec am B c s = .ok (c2, s2))
    (hp : c.registers.p < 256) : pOk c.registers.p c2.registers.p := by
  unfold Cpu.dec at h
  split at h
  · cases h
  · dsimp only [] at h
    split at h
    · cases h
    · rcases ok_pair_inj h with ⟨rfl, rfl⟩
      rename_i value s1 heq r1 s2x heq2
      show pOk c.registers.p (Flags.set (Flags.set r1.p Flags.ZERO _) Flags.NEGATIVE _)
      rw [store_p _ _ _ _ _ _ _ heq2]
      exact pOk_zn _ hp _ _

/-- INC preserves the status invariant. -/
theorem inc_pOk {B : BusModel σ} (h : Cpu.inc am B c s = .ok (c2, s2))
    (hp : c.registers.p < 256) : pOk c.registers.p c2.registers.p := by
  unfold Cpu.inc at h
  split at h
  · cases h
  · dsimp only [] at h
    split at h
    · cases h
    · rcases ok_pair_inj h with ⟨rfl, rfl⟩
      rename_i value s1 heq r1 s2x heq2
      show pOk c.registers.p (Flags.set (Flags.set r1.p Flags.ZERO _) Flags.NEGATIVE _)
      rw [store_p _ _ _ _ _ _ _ heq2]
      exact pOk_zn _ hp _ _

/-- Branches never change the status byte. -/
theorem branchIf_pOk {B : BusModel σ} {cnd : Bool} (h : Cpu.branchIf cnd am B c s = .ok (c2, s2))
    (hp : c.registers.p < 256) : pOk c.registers.p c2.registers.p := by
  unfold Cpu.branchIf at h
  split at h
  · split at h
    · cases h
    · rcases ok_pair_inj h with ⟨rfl, rfl⟩
      exact pOk_refl _ hp
  · rcases ok_pair_inj h with ⟨rfl, rfl⟩
    exact pOk_refl _ hp

/-- JMP never changes the status byte. -/
theorem jmp_pOk {B : BusModel σ} (h : Cpu.jmp am B c s = .ok (c2, s2))
    (hp : c.registers.p < 256) : pOk c.registers.p c2.registers.p := by
  unfold Cpu.jmp at h
  split at h
  · cases h
  · rcases ok_pair_inj h with ⟨rfl, rfl⟩
    exact pOk_refl _ hp

set_option maxRecDepth 4096 in
/-- JSR never changes the status byte. -/
theorem jsr_pOk {B : BusModel σ} (h : Cpu.jsr am B c s = .ok (c2, s2))
    (hp : c.registers.p < 256) : pOk c.registers.p c2.registers.p := by
  unfold Cpu.jsr at h
  dsimp only [Cpu.pushStack] at h
  split at h
  · cases h
  · rcases ok_pair_inj h with ⟨rfl, rfl⟩
    exact pOk_refl _ hp

/-- STA/STX/STY-style stores never change the status byte. -/
theorem sta_pOk {B : BusModel σ} (h : Cpu.sta am B c s = .ok (c2, s2))
    (hp : c.registers.p < 256) : pOk c.registers.p c2.registers.p := by
  unfold Cpu.sta at h
  split at h
  · cases h
  · rcases ok_pair_inj h with ⟨rfl, rfl⟩
    rename_i r1 s2x heq
    show pOk c.registers.p r1.p
    rw [store_p _ _ _ _ _ _ _ heq]
    exact pOk_refl _ hp

/-- STX preserves the status invariant. -/
theorem stx_pOk {B : BusModel σ} (h : Cpu.stx am B c s = .ok (c2, s2))
    (hp : c.registers.p < 256) : pOk c.registers.p c2.registers.p := by
  unfold Cpu.stx at h
  split at h
  · cases h
  · rcases ok_pair_inj h with ⟨rfl, rfl⟩
    rename_i r1 s2x heq
    show pOk c.registers.p r1.p
    rw [store_p _ _ _ _ _ _ _ heq]
    exact pOk_refl _ hp

/-- STY preserves the status invariant. -/
theorem sty_pOk {B : BusModel σ} (h : Cpu.sty am B c s = .ok (c2, s2))
    (hp : c.registers.p < 256) : pOk c.registers.p c2.registers.p := by
  unfold Cpu.sty at h
  split at h
  · cases h
  · rcases ok_pair_inj h with ⟨rfl, rfl⟩
    rename_i r1 s2x heq
    show pOk c.registers.p r1.p
    rw [store_p _ _ _ _ _ _ _ heq]
    exact pOk_refl _ hp

/-- SAX preserves the status invariant. -/
theorem usax_pOk {B : BusModel σ} (h : Cpu.uSax am B c s = .ok (c2, s2))
    (hp : c.registers.p < 256) : pOk c.registers.p c2.registers.p := by
  unfold Cpu.uSax at h
  split at h
  · cases h
  · rcases ok_pair_inj h with ⟨rfl, rfl⟩
    rename_i r1 s2x heq
    show pOk c.registers.p r1.p
    rw [store_p _ _ _ _ _ _ _ heq]
    exact pOk_refl _ hp

/-- Cpu::interrupt only inserts INTERRUPT_DISABLE into the live status
byte (the BREAK manipulation happens on the pushed copy). -/
theorem interrupt_pOk {B : BusModel σ} (c : Cpu) (s : σ) (vec : Nat × Nat)
    (brk : Bool) (hp : c.registers.p < 256) :
    pOk c.registers.p (Cpu.interrupt B c s vec brk).1.registers.p :=
  (pOk_insert _ hp).2.1

/-- Cpu.exec preserves the status invariant: no instruction handler ever
clears UNUSED or sets BREAK in the live status register. -/
theorem exec_pOk {B : BusModel σ} (i : Instr) (h : Cpu.exec B c s i = .ok (c2, s2))
    (hp : c.registers.p < 256) : pOk c.registers.p c2.registers.p := by
  obtain ⟨op, am⟩ := i
  cases op
  case adc => exact adc_pOk h hp
  case opAnd => exact and_pOk h hp
  case asl => exact asl_pOk h hp
  case bcc => exact branchIf_pOk h hp
  case bcs => exact branchIf_pOk h hp
  case beq => exact branchIf_pOk h hp
  case bit => exact bit_pOk h hp
  case bmi => exact branchIf_pOk h hp
  case bne => exact branchIf_pOk h hp
  case bpl => exact branchIf_pOk h hp
  case brk =>
    rcases ok_pair_inj h with ⟨rfl, rfl⟩
    exact interrupt_pOk _ _ _ _ hp
  case bvc => exact branchIf_pOk h hp
  case bvs => exact branchIf_pOk h hp
  case clc =>
    rcases ok_pair_inj h with ⟨rfl, rfl⟩
    exact (pOk_remove _ hp).1
  case cld =>
    rcases ok_pair_inj h with ⟨rfl, rfl⟩
    exact (pOk_remove _ hp).2.2.1
  case cli =>
    rcases ok_pair_inj h with ⟨rfl, rfl⟩
    exact (pOk_remove _ hp).2.1
  case clv =>
    rcases ok_pair_inj h with ⟨rfl, rfl⟩
    exact (pOk_remove _ hp).2.2.2
  case cmp => exact compare_pOk h hp
  case cpx => exact compare_pOk h hp
  case cpy => exact compare_pOk h hp
  case dec => exact dec_pOk h hp
  case dex =>
    rcases ok_pair_inj h with ⟨rfl, rfl⟩
    exact pOk_zn _ hp _ _
  case dey =>
    rcases ok_pair_inj h with ⟨rfl, rfl⟩
    exact pOk_zn _ hp _ _
  case eor => exact eor_pOk h hp
  case inc => exact inc_pOk h hp
  case inx =>
    rcases ok_pair_inj h with ⟨rfl, rfl⟩
    exact pOk_zn _ hp _ _
  case iny =>
    rcases ok_pair_inj h with ⟨rfl, rfl⟩
    exact pOk_zn _ hp _ _
  case jmp => exact jmp_pOk h hp
  case jsr => exact jsr_pOk h hp
  case lda => exact lda_pOk h hp
  case ldx => exact ldx_pOk h hp
  case ldy => exact ldy_pOk h hp
  case lsr => exact lsr_pOk h hp
  case nop =>
    rcases ok_pair_inj h with ⟨rfl, rfl⟩
    exact pOk_refl _ hp
  case ora => exact ora_pOk h hp
  case pha =>
    rcases ok_pair_inj h with ⟨rfl, rfl⟩
    exact pOk_refl _ hp
  case php =>
    rcases ok_pair_inj h with ⟨rfl, rfl⟩
    exact pOk_refl _ hp
  case pla =>
    rcases ok_pair_inj h with ⟨rfl, rfl⟩
    exact pOk_zn _ hp _ _
  case plp =>
    rcases ok_pair_inj h with ⟨rfl, rfl⟩
    exact pOk_pull _ _
  case rol => exact rol_pOk h hp
  case ror => exact ror_pOk h hp
  case rti =>
    rcases ok_pair_inj h with ⟨rfl, rfl⟩
    exact pOk_pull _ _
  case rts =>
    rcases ok_pair_inj h with ⟨rfl, rfl⟩
    exact pOk_refl _ hp
  case sbc => exact sbc_pOk h hp
  case sec =>
    rcases ok_pair_inj h with ⟨rfl, rfl⟩
    exact (pOk_insert _ hp).1
  case sed =>
    rcases ok_pair_inj h with ⟨rfl, rfl⟩
    exact (pOk_insert _ hp).2.2
  case sei =>
    rcases ok_pair_inj h with ⟨rfl, rfl⟩
    exact (pOk_insert _ hp).2.1
  case sta => exact sta_pOk h hp
  case stx => exact stx_pOk h hp
  case sty => exact sty_pOk h hp
  case tax =>
    rcases ok_pair_inj h with ⟨rfl, rfl⟩
    exact pOk_zn _ hp _ _
  case tay =>
    rcases ok_pair_inj h with ⟨rfl, rfl⟩
    exact pOk_zn _ hp _ _
  case tsx =>
    rcases ok_pair_inj h with ⟨rfl, rfl⟩
    exact pOk_zn _ hp _ _
  case txa =>
    rcases ok_pair_inj h with ⟨rfl, rfl⟩
    exact pOk_zn _ hp _ _
  case txs =>
    rcases ok_pair_inj h with ⟨rfl, rfl⟩
    exact pOk_refl _ hp
  case tya =>
    rcases ok_pair_inj h with ⟨rfl, rfl⟩
    exact pOk_zn _ hp _ _
  case uDcp =>
    have h2 : exSeq (Cpu.dec am B)
        (fun c1 s1 => Cpu.compare c1.registers.a am B c1 s1) c s = .ok (c2, s2) := h
    unfold exSeq at h2
    split at h2
    · cases h2
    · rename_i c1 s1 heq
      exact pOk_trans (dec_pOk heq hp) (compare_pOk h2 (dec_pOk heq hp).1)
  case uIsb =>
    have h2 : exSeq (Cpu.inc am B) (Cpu.sbc am B) c s = .ok (c2, s2) := h
    unfold exSeq at h2
    split at h2
    · cases h2
    · rename_i c1 s1 heq
      exact pOk_trans (inc_pOk heq hp) (sbc_pOk h2 (inc_pOk heq hp).1)
  case uLax =>
    have h2 : exSeq (Cpu.lda am B) (Cpu.ldx am B) c s = .ok (c2, s2) := h
    unfold exSeq at h2
    split at h2
    · cases h2
    · rename_i c1 s1 heq
      exact pOk_trans (lda_pOk heq hp) (ldx_pOk h2 (lda_pOk heq hp).1)
  case uNop =>
    rcases ok_pair_inj h with ⟨rfl, rfl⟩
    exact pOk_refl _ hp
  case uRla =>
    have h2 : exSeq (Cpu.rol am B) (Cpu.opAnd am B) c s = .ok (c2, s2) := h
    unfold exSeq at h2
    split at h2
    · cases h2
    · rename_i c1 s1 heq
      exact pOk_trans (rol_pOk heq hp) (and_pOk h2 (rol_pOk heq hp).1)
  case uRra =>
    have h2 : exSeq (Cpu.ror am B) (Cpu.adc am B) c s = .ok (c2, s2) := h
    unfold exSeq at h2
    split at h2
    · cases h2
    · rename_i c1 s1 heq
      exact pOk_trans (ror_pOk heq hp) (adc_pOk h2 (ror_pOk heq hp).1)
  case uSax => exact usax_pOk h hp
  case uSlo =>
    have h2 : exSeq (Cpu.asl am B) (Cpu.ora am B) c s = .ok (c2, s2) := h
    unfold exSeq at h2
    split at h2
    · cases h2
    · rename_i c1 s1 heq
      exact pOk_trans (asl_pOk heq hp) (ora_pOk h2 (asl_pOk heq hp).1)
  case uSre =>
    have h2 : exSeq (Cpu.lsr am B) (Cpu.eor am B) c s = .ok (c2, s2) := h
    unfold exSeq at h2
    split at h2
    · cases h2
    · rename_i c1 s1 heq
      exact pOk_trans (lsr_pOk heq hp) (eor_pOk h2 (lsr_pOk heq hp).1)
  case uStp => cases h

/-- The fetch-then-execute tail of Cpu.stepInner preserves the status
invariant. -/
theorem fetchExec_pOk {B : BusModel σ} {c0 : Cpu} {s0 : σ}
    (h : (match Instr.fetch B s0 c0.registers.pc with
      | .error e => Except.error e
      | .ok (instr, opcode, pc1, s1) =>
        match Cpu.exec B (c0.withPC pc1) s1 instr with
        | .error e => Except.error e
        | .ok (c3, s3) => Except.ok (c3, s3, opcode)) = .ok (c2, s2, op))
    (hp : c0.registers.p < 256) : pOk c0.registers.p c2.registers.p := by
  split at h
  · cases h
  · split at h
    · cases h
    · rename_i hexec
      rcases ok_triple_inj h with ⟨rfl, rfl, rfl⟩
      have hgo := exec_pOk _ hexec hp
      exact hgo

/-- Cpu.stepInner preserves the status invariant. -/
theorem stepInner_pOk {B : BusModel σ} (h : Cpu.stepInner B c s = .ok (c2, s2, op))
    (hp : c.registers.p < 256) : pOk c.registers.p c2.registers.p := by
  unfold Cpu.stepInner at h
  by_cases hirq : (c.irq_pending && !Flags.contains c.registers.p Flags.INTERRUPT_DISABLE) = true
  · rw [if_pos hirq] at h
    have hint := interrupt_pOk (B := B) { c with irq_pending := false } s IRQ_VECTOR false hp
    exact pOk_trans hint (fetchExec_pOk h hint.1)
  · rw [if_neg hirq] at h
    exact fetchExec_pOk h hp

/-- Cpu.step preserves the status invariant. -/
theorem step_pOk {B : BusModel σ} (h : Cpu.step B c s = .ok (c2, s2, n))
    (hp : c.registers.p < 256) : pOk c.registers.p c2.registers.p := by
  unfold Cpu.step at h
  split at h
  · cases h
  · rename_i c2x s2x opx heq
    split at h
    · cases h
    · rcases ok_triple_inj h with ⟨rfl, rfl, rfl⟩
      exact stepInner_pOk heq hp

/-- Cpu.tick preserves the status invariant. -/
theorem tick_pOk {B : BusModel σ} (h : Cpu.tick B c s = .ok (c2, s2))
    (hp : c.registers.p < 256) : pOk c.registers.p c2.registers.p := by
  unfold Cpu.tick at h
  split at h
  · split at h
    · cases h
    · rcases ok_pair_inj h with ⟨rfl, rfl⟩
      rename_i c1 s1 cost heq
      show pOk c.registers.p c1.registers.p
      exact step_pOk heq hp
  · rcases ok_pair_inj h with ⟨rfl, rfl⟩
    exact pOk_refl _ hp

/-- Cpu.reset preserves the status invariant (it only inserts
INTERRUPT_DISABLE). -/
theorem reset_pOk {B : BusModel σ} (h : Cpu.reset B c s = (c2, s2))
    (hp : c.registers.p < 256) : pOk c.registers.p c2.registers.p := by
  have h2 : (Cpu.reset B c s).1.registers.p = c2.registers.p := by rw [h]
  rw [← h2]
  exact (pOk_insert _ hp).2.1

/-- Cpu.irq preserves the status invariant. -/
theorem irq_pOk {B : BusModel σ} (h : Cpu.irq B c s = (c2, s2))
    (hp : c.registers.p < 256) : pOk c.registers.p c2.registers.p := by
  have h2 : (Cpu.irq B c s).1.registers.p = c2.registers.p := by rw [h]
  rw [← h2]
  unfold Cpu.irq
  split
  · exact pOk_refl _ hp
  · exact interrupt_pOk _ _ _ _ hp

/-- Cpu.nmi preserves the status invariant. -/
theorem nmi_pOk {B : BusModel σ} (h : Cpu.nmi B c s = (c2, s2))
    (hp : c.registers.p < 256) : pOk c.registers.p c2.registers.p := by
  have h2 : (Cpu.nmi B c s).1.registers.p = c2.registers.p := by rw [h]
  rw [← h2]
  exact interrupt_pOk _ _ _ _ hp

/-- Every public CPU transition preserves the status invariant. -/
theorem trans_pOk {B : BusModel σ} (ht : CpuTrans B (c, s) (c2, s2))
    (hp : c.registers.p < 256) : pOk c.registers.p c2.registers.p := by
  cases ht with
  | step h => exact step_pOk h hp
  | tick h => exact tick_pOk h hp
  | reset h => exact reset_pOk h hp
  | irq h => exact irq_pOk h hp
  | nmi h => exact nmi_pOk h hp

/-- Every reachable CPU state has a status byte below 256 with the UNUSED
bit set. -/
theorem reach_inv {B : BusModel σ} (h : Reachable B c s) :
    c.registers.p < 256 ∧ c.registers.p &&& 32 = 32 := by
  induction h with
  | init s => exact ⟨by decide, by decide⟩
  | trans hr ht ih =>
    have hop := trans_pOk ht ih.1
    exact ⟨hop.1, hop.2.1 ih.2⟩

/-! Claim C4. -/

/-- Claim C4 counterexample: the state after construction (even after the
customary reset) is reachable and has BREAK = 1 in the live P register,
because the Flags default ALWAYS_ON sets BREAK and reset only inserts
INTERRUPT_DISABLE — so the claimed BREAK == 0 invariant fails. -/
theorem C4_counterexample :
    Reachable UnitBus (Cpu.reset UnitBus Cpu.new ()).1 () ∧
    Flags.contains Cpu.new.registers.p Flags.BREAK = true ∧
    Flags.contains (Cpu.reset UnitBus Cpu.new ()).1.registers.p Flags.BREAK = true := by
  refine ⟨Reachable.trans (Reachable.init ()) (CpuTrans.reset rfl), by decide, by decide⟩

/-- Claim C4 (amended): in every CPU state reachable from construction
through any sequence of step/tick/reset/irq/nmi calls on any bus, the
in-register P has UNUSED == 1; and no such call ever sets BREAK — once
BREAK is 0 it stays 0 across every transition (BREAK starts at 1 from the
Flags default and is cleared permanently by the first PLP or RTI). -/
theorem C4_flag_invariants :
    ∀ (σ : Type) (B : BusModel σ),
      (∀ (c : Cpu) (s : σ), Reachable B c s →
        Flags.contains c.registers.p Flags.UNUSED = true)
      ∧ (∀ (c : Cpu) (s : σ) (c2 : Cpu) (s2 : σ), Reachable B c s →
          CpuTrans B (c, s) (c2, s2) →
          Flags.contains c.registers.p Flags.BREAK = false →
          Flags.contains c2.registers.p Flags.BREAK = false) := by
  intro σ B
  constructor
  · intro c s hr
    have hi := reach_inv hr
    exact ((contains_mask _ hi.1).1).mpr hi.2
  · intro c s c2 s2 hr ht hbrk
    have hi := reach_inv hr
    have hop := trans_pOk ht hi.1
    exact ((contains_mask _ hop.1).2).mpr (hop.2.2 (((contains_mask _ hi.1).2).mp hbrk))

/-- A bus that always reads 0x28, the PLP opcode. -/
def PlpBus : BusModel Unit := ConstBus 0x28 (by norm_num)

/-- The CPU state after one step on the PLP bus: the PLP at address 0
pulled 0x28 from the stack, leaving P = 0x28 with UNUSED forced on and
BREAK forced off. -/
def plpCpu : Cpu :=
  { registers := { a := 0, x := 0, y := 0, s := 0xFE, pc := 1, p := 40 },
    irq_pending := false, cycles_remaining := 0, cycle := 0 }

/-- Claim C4 witness: UNUSED is set in the freshly constructed state, and
the irq transition from the reachable post-PLP state (which has BREAK = 0)
keeps BREAK = 0. -/
theorem C4_witness :
    Flags.contains Cpu.new.registers.p Flags.UNUSED = true
    ∧ Flags.contains (Cpu.irq PlpBus plpCpu ()).1.registers.p Flags.BREAK = false :=
  ⟨(C4_flag_invariants Unit PlpBus).1 Cpu.new () (Reachable.init ()),
   (C4_flag_invariants Unit PlpBus).2 plpCpu () (Cpu.irq PlpBus plpCpu ()).1 ()
     (Reachable.trans (Reachable.init ()) (CpuTrans.step rfl))
     (CpuTrans.irq rfl) (by decide)⟩

end Nes
